import Mathlib

/-!
# drone-gc: the image collector of `gc/image.go` and its options in `gc/option.go`

A shallow embedding of the image collector.  The Docker client is an external
collaborator; it is embedded as a record of state-passing functions over an
arbitrary client state `σ`, so that a client may answer differently each time
it is called.  Every call the collector makes on the client is written, with
the answer it received, into an event log, grouped by iteration of the loop
over `df.Images`.

Conventions: `int64` values are integers and subtraction wraps around
(`sub64`); times follow Go's package `time`, where `time.Unix` adds in `int64`
and `Time.Add` saturates; a Go `error` is an `Option GoError`, nil being
`none`; the entries
of `df.Images` and `df.Containers`, pointers in Go, are taken to be non-nil;
logging statements (zerolog) have no effect on control flow and are left out,
and so is the `context.Context`, which is only handed on to the client.
-/

namespace DroneGC

/-! ## Data model -/

/-- A Go `error` value that is not nil.  `plain` stands for any error that is
not a `*multierror.Error`; `multi` is a `*multierror.Error` with its `Errors`
slice.  A nil `error` is `none : Option GoError`. -/
inductive GoError where
  | plain (msg : String)
  | multi (errors : List GoError)

mutual
/-- Equality of two errors is decidable. -/
def GoError.decEq : (a b : GoError) → Decidable (a = b)
  | .plain a, .plain b =>
    if h : a = b then isTrue (by rw [h]) else isFalse (fun e => h (GoError.plain.inj e))
  | .multi as, .multi bs =>
    match GoError.decEqList as bs with
    | isTrue h => isTrue (by rw [h])
    | isFalse h => isFalse (fun e => h (GoError.multi.inj e))
  | .plain _, .multi _ => isFalse (fun e => GoError.noConfusion e)
  | .multi _, .plain _ => isFalse (fun e => GoError.noConfusion e)
termination_by structural x => x
/-- Equality of two lists of errors is decidable. -/
def GoError.decEqList : (a b : List GoError) → Decidable (a = b)
  | [], [] => isTrue rfl
  | a :: as, b :: bs =>
    match GoError.decEq a b, GoError.decEqList as bs with
    | isTrue h1, isTrue h2 => isTrue (by rw [h1, h2])
    | isFalse h1, _ => isFalse (fun e => h1 (List.cons.inj e).1)
    | _, isFalse h2 => isFalse (fun e => h2 (List.cons.inj e).2)
  | [], _ :: _ => isFalse (fun e => List.noConfusion e)
  | _ :: _, [] => isFalse (fun e => List.noConfusion e)
termination_by structural x => x
end

instance : DecidableEq GoError := GoError.decEq

deriving instance DecidableEq for Except

/-- The struct `types.ImageRemoveOptions` of the Docker API. -/
structure ImageRemoveOptions where
  Force : Bool
  PruneChildren : Bool
  deriving DecidableEq, Repr

/-- The struct `types.ImageSummary`: the fields the collector reads.  `Created` is Unix
seconds; `Created`, `Size` and `SharedSize` are `int64` in Go. -/
structure ImageSummary where
  ID : String
  ParentID : String
  Created : Int
  Size : Int
  SharedSize : Int
  RepoTags : List String
  RepoDigests : List String
  deriving DecidableEq, Repr

/-- The struct `types.Container`: the field the collector reads. -/
structure Container where
  ImageID : String
  deriving DecidableEq, Repr

/-- The struct `types.ImageInspect`: the fields the collector reads. -/
structure ImageInspect where
  ID : String
  RepoTags : List String
  RepoDigests : List String
  deriving DecidableEq, Repr

/-- The struct `types.DiskUsage`: the fields the collector reads. -/
structure DiskUsage where
  LayersSize : Int
  Images : List ImageSummary
  Containers : List Container
  deriving DecidableEq, Repr

/-- The struct `filters.KeyValuePair`.  A `filters.Args` built by
`filters.NewArgs` is the list of the pairs it was given. -/
structure KeyValuePair where
  Key : String
  Value : String
  deriving DecidableEq, Repr

/-- The struct `types.ImageDeleteResponseItem`. -/
structure ImageDeleteResponseItem where
  Deleted : String
  Untagged : String
  deriving DecidableEq, Repr

/-- The struct `types.ImagesPruneReport`; `SpaceReclaimed` is a `uint64`. -/
structure ImagesPruneReport where
  ImagesDeleted : List ImageDeleteResponseItem
  SpaceReclaimed : Nat
  deriving DecidableEq, Repr

/-- The methods of `docker.APIClient` that `gc/image.go` calls, over a client
state `σ`.  Each method returns its answer and the next client state.
`ImageInspectWithRaw` returns `(ImageInspect, []byte, error)` in Go and
`ImageRemove` returns `([]ImageDeleteResponseItem, error)`; the collector only
looks at the error and, when it is nil, at the `ImageInspect`. -/
structure APIClient (σ : Type) where
  DiskUsage : σ → Except GoError DiskUsage × σ
  ImageInspectWithRaw : σ → String → Except GoError ImageInspect × σ
  ImageRemove : σ → String → ImageRemoveOptions → Option GoError × σ
  ImagesPrune : σ → List KeyValuePair → Except GoError ImagesPruneReport × σ

/-- Modelled from the spec: the declaration of the `collector` struct is not
among the source files (only `option.go` and `image.go`, which use it, are).
The fields are those the two files read and write, with the types of the
option constructors: `threshold int64`, `minImageAge time.Duration`
(nanoseconds), `reserved` and `whitelist []string`, and the two flags of the
configuration surface of the spec. -/
structure collector (σ : Type) where
  client : APIClient σ
  whitelist : List String
  reserved : List String
  threshold : Int
  minImageAge : Int
  shouldCollectDanglingImages : Bool
  imageRemoveOptions : ImageRemoveOptions

/-! ## Machine arithmetic, time, errors -/

/-- The value an `int64` holds after a computation whose exact result is `x`
(two's complement wrap-around). -/
def wrap64 (x : Int) : Int :=
  (x + 9223372036854775808) % 18446744073709551616 - 9223372036854775808

/-- Go `a - b` on `int64`. -/
def sub64 (a b : Int) : Int := wrap64 (a - b)

/-- The errors `multierror.Append` adds for one argument: the entries of a
`*multierror.Error` are spliced in, any other error is added as it is. -/
def flattenError : GoError → List GoError
  | GoError.multi errors => errors
  | e => [e]

/-- The call `multierror.Append(result, err)` of hashicorp/go-multierror for one
non-nil `err`: the outcome is always a `*multierror.Error`. -/
def multierrorAppend (result : Option GoError) (err : GoError) : GoError :=
  match result with
  | some (GoError.multi errors) => GoError.multi (errors ++ flattenError err)
  | some e => GoError.multi (e :: flattenError err)
  | none => GoError.multi (flattenError err)

/-- The entries `multierror.Append` starts from for the first argument
`result`: none for nil, otherwise those of `flattenError`. -/
def errorsOf : Option GoError → List GoError
  | none => []
  | some e => flattenError e

/-- Whether an integer is a value of the Go type `int64`. -/
def isInt64 (x : Int) : Bool :=
  decide (-9223372036854775808 ≤ x) && decide (x < 9223372036854775808)

/-- The constant `unixToInternal` of Go's package `time`: the seconds from
January 1 of year 1 to the Unix epoch. -/
def unixToInternal : Int := 62135596800

/-- A `time.Time` without monotonic clock reading, as its methods `sec()` and
`nsec()` see it: the seconds since January 1 of year 1, an `int64`, and the
nanoseconds within the second. -/
structure Time where
  sec : Int
  nsec : Int
  deriving DecidableEq, Repr

/-- The call `time.Unix(sec, 0)`: the second count is `sec + unixToInternal`,
added in `int64`. -/
def Time.Unix (sec : Int) : Time := ⟨wrap64 (sec + unixToInternal), 0⟩

/-- The method `addSec` of `time.Time` on a time without monotonic reading:
the sum is taken in `int64`, and when it overflowed the result is the largest
or the smallest second count instead. -/
def Time.addSec (t : Time) (d : Int) : Time :=
  if decide (wrap64 (t.sec + d) > t.sec) = decide (d > 0) then ⟨wrap64 (t.sec + d), t.nsec⟩
  else if d > 0 then ⟨9223372036854775807, t.nsec⟩
  else ⟨-9223372036854775807, t.nsec⟩

/-- The method `Time.Add` on a time without monotonic reading.  `Int.tdiv` and
`Int.tmod` are Go's `/` and `%`, which round towards zero. -/
def Time.Add (t : Time) (d : Int) : Time :=
  if t.nsec + Int.tmod d 1000000000 ≥ 1000000000 then
    Time.addSec ⟨t.sec, t.nsec + Int.tmod d 1000000000 - 1000000000⟩
      (Int.tdiv d 1000000000 + 1)
  else if t.nsec + Int.tmod d 1000000000 < 0 then
    Time.addSec ⟨t.sec, t.nsec + Int.tmod d 1000000000 + 1000000000⟩
      (Int.tdiv d 1000000000 - 1)
  else Time.addSec ⟨t.sec, t.nsec + Int.tmod d 1000000000⟩ (Int.tdiv d 1000000000)

/-- The method `Time.After` when the receiver has no monotonic reading, as is
the case for a time built by `time.Unix`: seconds are compared first, then
nanoseconds. -/
def Time.After (t u : Time) : Bool :=
  decide (t.sec > u.sec) || (decide (t.sec = u.sec) && decide (t.nsec > u.nsec))

/-- The reading `time.Now()` of a clock that shows `now` nanoseconds since the
Unix epoch.  The clock is taken to show an instant that a `time.Time` can hold,
so its second count is not wrapped. -/
def clockTime (now : Int) : Time :=
  ⟨now / 1000000000 + unixToInternal, now % 1000000000⟩

/-- The age guard `time.Unix(image.Created, 0).Add(c.minImageAge).After(now)`,
where `now` is the value of `time.Now()` taken before the loop, in nanoseconds
since the Unix epoch.  `Created` is an `int64` and `minImageAge` a
`time.Duration`, an `int64` of nanoseconds; for integers outside `int64`,
which Go cannot hold, the guard is the exact comparison of the instants. -/
def notOldEnough (image : ImageSummary) (minImageAge now : Int) : Bool :=
  if isInt64 image.Created && isInt64 minImageAge then
    Time.After (Time.Add (Time.Unix image.Created) minImageAge) (clockTime now)
  else decide (now < image.Created * 1000000000 + minImageAge)

/-! ## `gc/image.go` -/

/-- The function `isImageUsed` of `gc/image.go`. -/
def isImageUsed (image : ImageSummary) : List Container → Bool
  | [] => false
  | container :: containers =>
    if container.ImageID = image.ID ∨ container.ImageID = image.ParentID then true
    else isImageUsed image containers

/-- The function `shouldConsiderSharedSpace` of `gc/image.go`. -/
def shouldConsiderSharedSpace {σ : Type} (c : collector σ) : Bool :=
  c.imageRemoveOptions.PruneChildren

/-- One call on the client together with the answer it gave. -/
inductive Event where
  | inspect (imageID : String) (answer : Except GoError ImageInspect)
  | remove (imageID : String) (options : ImageRemoveOptions) (answer : Option GoError)
  deriving DecidableEq

/-- The non-nil error the client answered the call with, if any. -/
def Event.error? : Event → Option GoError
  | Event.inspect _ (Except.error err) => some err
  | Event.inspect _ (Except.ok _) => none
  | Event.remove _ _ answer => answer

/-- Whether the client answered the call with a non-nil error. -/
def Event.failed : Event → Bool
  | Event.inspect _ (Except.error _) => true
  | Event.inspect _ (Except.ok _) => false
  | Event.remove _ _ (some _) => true
  | Event.remove _ _ none => false

/-- Whether the call is an `ImageInspectWithRaw` call. -/
def Event.isInspect : Event → Bool
  | Event.inspect _ _ => true
  | Event.remove _ _ _ => false

/-- Whether the call is an `ImageRemove` call. -/
def Event.isRemove : Event → Bool
  | Event.inspect _ _ => false
  | Event.remove _ _ _ => true

/-- The `ImageInspect` the client answered an inspect call with, if the call
succeeded. -/
def Event.inspected? : Event → Option ImageInspect
  | Event.inspect _ (Except.ok info) => some info
  | Event.inspect _ (Except.error _) => none
  | Event.remove _ _ _ => none

/-- The list `removalAttributes` that `removeImage` builds before its loop. -/
def removalAttributes (imageInspect : ImageInspect) : List String :=
  if imageInspect.RepoTags.length > 0 then imageInspect.RepoTags
  else if imageInspect.RepoDigests.length > 0 then imageInspect.RepoDigests
  else [imageInspect.ID]

/-- The `for _, attribute := range removalAttributes` loop of `removeImage`
(`attr` is the loop variable): `err` is the variable the loop assigns; a
non-nil answer breaks out. -/
def removeLoop {σ : Type} (c : collector σ) :
    List String → Option GoError → σ → Option GoError × σ × List Event
  | [], err, s => (err, s, [])
  | attr :: rest, _, s =>
    match c.client.ImageRemove s attr c.imageRemoveOptions with
    | (some err, s1) =>
      (some err, s1, [Event.remove attr c.imageRemoveOptions (some err)])
    | (none, s1) =>
      match removeLoop c rest none s1 with
      | (err, s2, events) =>
        (err, s2, Event.remove attr c.imageRemoveOptions none :: events)

/-- The method `collector.removeImage` of `gc/image.go`: the returned error, the next
client state and the calls made. -/
def removeImage {σ : Type} (c : collector σ) (imageInspect : ImageInspect) (s : σ) :
    Option GoError × σ × List Event :=
  removeLoop c (removalAttributes imageInspect) none s

/-- The variables that live across iterations of the loop of `collectImages`:
the running `size`, the aggregated `result` and the client state. -/
structure LoopState (σ : Type) where
  size : Int
  result : Option GoError
  state : σ

/-- What one iteration of the loop over `df.Images` did: the image it looked
at, the running size on entry and on exit, the client calls it made, and
whether it reached the point after a successful `removeImage`. -/
structure Iteration where
  image : ImageSummary
  sizeBefore : Int
  events : List Event
  removed : Bool
  sizeAfter : Int
  deriving DecidableEq

/-- How an iteration ends: `next` for falling through or `continue`, `stop`
for `break`. -/
inductive Flow where
  | next
  | stop
  deriving DecidableEq, Repr

/-- The body of `for _, image := range df.Images` in `collectImages`.
`matchPatterns` is the helper of that name, declared outside the given source
files and taken as a parameter. -/
def loopBody {σ : Type} (matchPatterns : List String → List String → Bool)
    (c : collector σ) (df : DiskUsage) (now : Int) (image : ImageSummary)
    (st : LoopState σ) : Flow × LoopState σ × Iteration :=
  if isImageUsed image df.Containers then
    (Flow.next, st, ⟨image, st.size, [], false, st.size⟩)
  else if notOldEnough image c.minImageAge now then
    (Flow.next, st, ⟨image, st.size, [], false, st.size⟩)
  else
    match c.client.ImageInspectWithRaw st.state image.ID with
    | (Except.error err, s1) =>
      (Flow.next, ⟨st.size, some (multierrorAppend st.result err), s1⟩,
        ⟨image, st.size, [Event.inspect image.ID (Except.error err)], false, st.size⟩)
    | (Except.ok info, s1) =>
      if matchPatterns info.RepoTags c.reserved then
        (Flow.next, ⟨st.size, st.result, s1⟩,
          ⟨image, st.size, [Event.inspect image.ID (Except.ok info)], false, st.size⟩)
      else
        match removeImage c info s1 with
        | (some err, s2, events) =>
          (Flow.next, ⟨st.size, some (multierrorAppend st.result err), s2⟩,
            ⟨image, st.size, Event.inspect image.ID (Except.ok info) :: events, false,
              st.size⟩)
        | (none, s2, events) =>
          let size1 := sub64 st.size image.Size
          let size2 := if shouldConsiderSharedSpace c then sub64 size1 image.SharedSize
            else size1
          (if size2 < c.threshold then Flow.stop else Flow.next, ⟨size2, st.result, s2⟩,
            ⟨image, st.size, Event.inspect image.ID (Except.ok info) :: events, true,
              size2⟩)

/-- The running size after a successful removal of `image`: lines 119 to 122
of `gc/image.go`, as `loopBody` computes it. -/
def sizeAfterRemoval {σ : Type} (c : collector σ) (size : Int) (image : ImageSummary) : Int :=
  if shouldConsiderSharedSpace c then sub64 (sub64 size image.Size) image.SharedSize
  else sub64 size image.Size

/-- The loop `for _, image := range df.Images` of `collectImages`: the state
on leaving the loop and the iterations that ran, in order. -/
def imagesLoop {σ : Type} (matchPatterns : List String → List String → Bool)
    (c : collector σ) (df : DiskUsage) (now : Int) :
    List ImageSummary → LoopState σ → LoopState σ × List Iteration
  | [], st => (st, [])
  | image :: rest, st =>
    match loopBody matchPatterns c df now image st with
    | (Flow.stop, st1, it) => (st1, [it])
    | (Flow.next, st1, it) =>
      match imagesLoop matchPatterns c df now rest st1 with
      | (st2, its) => (st2, it :: its)

/-- The outcome of one call of `collectImages`: the returned error, the
answer of the `DiskUsage` call, the loop iterations that ran and the client
state afterwards. -/
structure Pass (σ : Type) where
  result : Option GoError
  snapshot : Except GoError DiskUsage
  iterations : List Iteration
  state : σ

/-- The method `collector.collectImages` of `gc/image.go`.  `now` is the value of
`time.Now()` read before the loop and `s` the state of the client on entry. -/
def collectImages {σ : Type} (matchPatterns : List String → List String → Bool)
    (c : collector σ) (now : Int) (s : σ) : Pass σ :=
  match c.client.DiskUsage s with
  | (Except.error err, s1) => ⟨some err, Except.error err, [], s1⟩
  | (Except.ok df, s1) =>
    if df.LayersSize < c.threshold then ⟨none, Except.ok df, [], s1⟩
    else
      match imagesLoop matchPatterns c df now df.Images ⟨df.LayersSize, none, s1⟩ with
      | (st, its) => ⟨st.result, Except.ok df, its, st.state⟩

/-- Every `ImageInspectWithRaw` and `ImageRemove` call of a pass, in the
order the calls were made. -/
def Pass.events {σ : Type} (p : Pass σ) : List Event :=
  p.iterations.flatMap Iteration.events

/-- The number of `ImageRemove` calls the inspect answers of a log allow: for
every successful inspect call, the length of the list `removalAttributes` of
its answer, and at least one. -/
def removalBudget (events : List Event) : Nat :=
  ((events.filterMap Event.inspected?).map
    (fun info => max 1 (removalAttributes info).length)).sum

/-- The call discipline of one iteration on `image`: at most one inspect call,
which is for `image.ID` and comes first; every `ImageRemove` call carries the
collector's options and a reference out of `removalAttributes` of the inspect
answer at the head of the log; and the `ImageRemove` calls are within the
budget of the log. -/
def CallDiscipline {σ : Type} (c : collector σ) (image : ImageSummary)
    (events : List Event) : Prop :=
  events.countP Event.isInspect ≤ 1 ∧
    (∀ imageID answer, Event.inspect imageID answer ∈ events →
      imageID = image.ID ∧ events.head? = some (Event.inspect imageID answer)) ∧
    (∀ ref options answer, Event.remove ref options answer ∈ events →
      options = c.imageRemoveOptions ∧
      ∃ info, events.head? = some (Event.inspect image.ID (Except.ok info)) ∧
        ref ∈ removalAttributes info) ∧
    events.countP Event.isRemove ≤ removalBudget events

/-- The errors the client answered during a pass, in the order the calls were
made. -/
def Pass.failures {σ : Type} (p : Pass σ) : List GoError :=
  p.events.filterMap Event.error?

/-- The package variable `imagePruneArgs` of `gc/image.go`. -/
def imagePruneArgs : List KeyValuePair := [⟨"until", "1h"⟩]

/-- One `ImagesPrune` call on the client: the filter it was given and the
answer it gave. -/
structure PruneCall where
  args : List KeyValuePair
  answer : Except GoError ImagesPruneReport
  deriving DecidableEq

/-- The method `collector.collectDanglingImages` of `gc/image.go`: the returned
error, the next client state and the `ImagesPrune` calls made.  The loop over
`report.ImagesDeleted` only writes log lines. -/
def collectDanglingImages {σ : Type} (c : collector σ) (s : σ) :
    Option GoError × σ × List PruneCall :=
  match c.client.ImagesPrune s imagePruneArgs with
  | (Except.error err, s1) => (some err, s1, [⟨imagePruneArgs, Except.error err⟩])
  | (Except.ok report, s1) => (none, s1, [⟨imagePruneArgs, Except.ok report⟩])

/-! ## `gc/option.go` -/

/-- The type `Option` of `gc/option.go`, a `func(*collector)`: the collector
after the call, given the collector before it. -/
abbrev CollectorOption (σ : Type) : Type := collector σ → collector σ

/-- The option `WithDanglingImagesCollection` of `gc/option.go`. -/
def WithDanglingImagesCollection {σ : Type} (enabled : Bool) : CollectorOption σ :=
  fun c => { c with shouldCollectDanglingImages := enabled }

/-- The option `WithImageRemoveOptions` of `gc/option.go`. -/
def WithImageRemoveOptions {σ : Type} (options : ImageRemoveOptions) : CollectorOption σ :=
  fun c => { c with imageRemoveOptions := options }

/-- The option `WithImageWhitelist` of `gc/option.go`. -/
def WithImageWhitelist {σ : Type} (images : List String) : CollectorOption σ :=
  fun c => { c with reserved := c.reserved ++ images }

/-- The option `WithWhitelist` of `gc/option.go`. -/
def WithWhitelist {σ : Type} (names : List String) : CollectorOption σ :=
  fun c => { c with whitelist := c.whitelist ++ names }

/-- The option `WithThreshold` of `gc/option.go`. -/
def WithThreshold {σ : Type} (threshold : Int) : CollectorOption σ :=
  fun c => { c with threshold := threshold }

/-- The option `WithMinImageAge` of `gc/option.go`. -/
def WithMinImageAge {σ : Type} (minImageAge : Int) : CollectorOption σ :=
  fun c => { c with minImageAge := minImageAge }

/-- The package variable `ReservedImages` of `gc/option.go`. -/
def ReservedImages : List String :=
  ["drone/drone:*", "drone/agent:*", "drone/gc:*", "drone/autoscaler:*"]

/-- The package variable `ReservedNames` of `gc/option.go`. -/
def ReservedNames : List String :=
  ["drone", "drone-server", "agent", "drone-agent", "gc", "drone-gc", "autoscaler",
    "autoscale", "watchtower", "cadvisor"]

/-! ## The pattern matcher and the test client -/

/-- Modelled from the spec: the glob match behind `matchPatterns`, which is
declared outside the given source files.  A `*` in the pattern matches any run
of characters, every other character matches itself, and the whole candidate
has to be matched. -/
def globMatch : List Char → List Char → Bool
  | [], name => name.isEmpty
  | p :: pattern, name =>
    if p = '*' then name.tails.any (globMatch pattern)
    else
      match name with
      | [] => false
      | ch :: name1 => decide (p = ch) && globMatch pattern name1

/-- Modelled from the spec: `matchPatterns`, declared outside the given source
files.  True iff any candidate string matches any pattern under glob
semantics; false for an empty list of candidates and for an empty list of
patterns. -/
def matchPatterns (names patterns : List String) : Bool :=
  patterns.any (fun pattern => names.any (fun name => globMatch pattern.toList name.toList))

/-- The client of the tests in `gc/image_test.go`: `DiskUsage` returns `df`,
`ImageInspectWithRaw` returns the entry of `images` with the asked ID, and
`ImageRemove` fails for the references in `failing` with the error of
`TestCollectImages_MutliError`, and `ImagesPrune` reports nothing deleted.  The
state counts the calls made. -/
def mockClient (df : Except GoError DiskUsage) (images : List ImageInspect)
    (failing : List String) : APIClient Nat where
  DiskUsage := fun n => (df, n + 1)
  ImageInspectWithRaw := fun n imageID =>
    match images.find? (fun info => decide (info.ID = imageID)) with
    | some info => (Except.ok info, n + 1)
    | none => (Except.error (GoError.plain "no such image"), n + 1)
  ImageRemove := fun n imageID _ =>
    if imageID ∈ failing then (some (GoError.plain "cannot remove container"), n + 1)
    else (none, n + 1)
  ImagesPrune := fun n _ => (Except.ok ⟨[], 0⟩, n + 1)

/-- The collector `New(client)` of the tests before any option is applied. -/
def newCollector {σ : Type} (client : APIClient σ) : collector σ :=
  ⟨client, [], [], 0, 0, false, ⟨false, false⟩⟩

/-- Modelled from the spec: the constructor `New` is declared outside the given
source files.  As the tests call it, `New(client, opt...)` applies the options
one after the other, in the order given, to a collector that holds the client
and is otherwise zero. -/
def New {σ : Type} (client : APIClient σ) (opt : List (CollectorOption σ)) : collector σ :=
  opt.foldl (fun c o => o c) (newCollector client)

/-- The snapshot of `TestCollectImages_BelowThreshold`. -/
def belowThresholdUsage : DiskUsage := ⟨1, [], []⟩

/-- The collector of `TestCollectImages_BelowThreshold`: threshold 2. -/
def belowThresholdCollector : collector Nat :=
  { newCollector (mockClient (Except.ok belowThresholdUsage) [] []) with threshold := 2 }

/-- An instant after every `Created` of the tests, in nanoseconds. -/
def testNow : Int := 1700000000000000000

/-- The inspect answer for an image that has no tag and one digest. -/
def reservedDigestInfo : ImageInspect :=
  ⟨"a180b24e38ed", [], ["drone/drone@sha256:9a839e63dad5"]⟩

/-- A snapshot of one image, not used by any container. -/
def oneImageUsage : DiskUsage :=
  ⟨1, [⟨"a180b24e38ed", "", 359596800, 0, 0, [], []⟩], []⟩

/-- A collector whose reserved list holds a pattern for the digests of
`drone/drone`, over a client that knows one image carrying such a digest. -/
def reservedDigestCollector : collector Nat :=
  { newCollector (mockClient (Except.ok oneImageUsage) [reservedDigestInfo] []) with
    reserved := ["drone/drone@sha256:*"] }

/-- The inspect answer of `TestCollectImages_SkipWhitelist`. -/
def whitelistInfo : ImageInspect :=
  ⟨"a180b24e38ed",
    ["drone/drone:1.0.0", "drone/drone:1.0", "drone/drone:1", "drone/drone:latest"], []⟩

/-- The collector of `TestCollectImages_SkipWhitelist`. -/
def whitelistCollector : collector Nat :=
  { newCollector (mockClient (Except.ok oneImageUsage) [whitelistInfo] []) with
    reserved := ["drone/drone:*"] }

/-- The only iteration of the pass of `TestCollectImages_SkipWhitelist`. -/
def whitelistIteration : Iteration :=
  ⟨⟨"a180b24e38ed", "", 359596800, 0, 0, [], []⟩, 1,
    [Event.inspect "a180b24e38ed" (Except.ok whitelistInfo)], false, 1⟩

/-- The snapshot of `TestCollectImages_Skip`: the first image is used by a
container, the second was created at `testNow`. -/
def skipUsage : DiskUsage :=
  ⟨1, [⟨"a180b24e38ed", "", 359596800, 0, 0, [], []⟩,
      ⟨"481995377a04", "", 1700000000, 0, 0, [], []⟩],
    [⟨"a180b24e38ed"⟩]⟩

/-- The collector of `TestCollectImages_Skip`: a minimum image age of one
hour. -/
def skipCollector : collector Nat :=
  { newCollector (mockClient (Except.ok skipUsage) [] []) with minImageAge := 3600000000000 }

/-- The first iteration of the pass of `TestCollectImages_Skip`. -/
def skipFirstIteration : Iteration :=
  ⟨⟨"a180b24e38ed", "", 359596800, 0, 0, [], []⟩, 1, [], false, 1⟩

/-- The snapshot of `TestCollectImages_SkipNotOldEnough`: images created 20
and 40 minutes before `testNow`. -/
def notOldEnoughUsage : DiskUsage :=
  ⟨1, [⟨"a180b24e38ed", "", 1699998800, 0, 0, [], []⟩,
      ⟨"481995377a04", "", 1699997600, 0, 0, [], []⟩], []⟩

/-- The collector of `TestCollectImages_SkipNotOldEnough`: a minimum image age
of 30 minutes. -/
def notOldEnoughCollector : collector Nat :=
  { newCollector (mockClient (Except.ok notOldEnoughUsage)
      [⟨"a180b24e38ed", [], []⟩, ⟨"481995377a04", [], []⟩] []) with
    minImageAge := 1800000000000 }

/-- The first iteration of the pass of `TestCollectImages_SkipNotOldEnough`. -/
def youngIteration : Iteration :=
  ⟨⟨"a180b24e38ed", "", 1699998800, 0, 0, [], []⟩, 1, [], false, 1⟩

/-- The second iteration of the pass of `TestCollectImages_SkipNotOldEnough`. -/
def oldEnoughIteration : Iteration :=
  ⟨⟨"481995377a04", "", 1699997600, 0, 0, [], []⟩, 1,
    [Event.inspect "481995377a04" (Except.ok ⟨"481995377a04", [], []⟩),
      Event.remove "481995377a04" ⟨false, false⟩ none], true, 1⟩

/-- An image of the tests that carries neither tag nor digest, created in
1981. -/
def untaggedImage (ID : String) (size sharedSize : Int) : ImageSummary :=
  ⟨ID, "", 359596800, size, sharedSize, [], []⟩

/-- The snapshot of `TestCollectImages_ById`. -/
def byIdUsage : DiskUsage :=
  ⟨850, [untaggedImage "a180b24e38ed" 300 50, untaggedImage "4e38e38c8ce0" 300 50,
      untaggedImage "481995377a04" 250 50], []⟩

/-- The collector of `TestCollectImages_ById`: threshold 500. -/
def byIdCollector : collector Nat :=
  { newCollector (mockClient (Except.ok byIdUsage)
      [⟨"a180b24e38ed", [], []⟩, ⟨"4e38e38c8ce0", [], []⟩, ⟨"481995377a04", [], []⟩] []) with
    threshold := 500 }

/-- The second iteration of the pass of `TestCollectImages_ById`. -/
def byIdSecondIteration : Iteration :=
  ⟨untaggedImage "4e38e38c8ce0" 300 50, 550,
    [Event.inspect "4e38e38c8ce0" (Except.ok ⟨"4e38e38c8ce0", [], []⟩),
      Event.remove "4e38e38c8ce0" ⟨false, false⟩ none], true, 250⟩

/-- The snapshot of `TestCollectImages_OnlyConsiderSharedSizeWhenPruneChildrenIsTrue`. -/
def sharedSizeUsage : DiskUsage :=
  ⟨600, [⟨"a180b24e38ed", "", 359596800, 300, 50, ["alpine:latest"], []⟩,
      ⟨"4e38e38c8ce0", "", 359596800, 300, 50, ["busybox:latest"], []⟩], []⟩

/-- The collector of that test with threshold 300 and the given remove
options. -/
def sharedSizeCollector (options : ImageRemoveOptions) : collector Nat :=
  { newCollector (mockClient (Except.ok sharedSizeUsage)
      [⟨"a180b24e38ed", ["alpine:latest"], []⟩, ⟨"4e38e38c8ce0", ["busybox:latest"], []⟩]
      []) with
    threshold := 300, imageRemoveOptions := options }

/-- The first iteration of that test when `PruneChildren` is set. -/
def sharedSizeFirstIteration : Iteration :=
  ⟨⟨"a180b24e38ed", "", 359596800, 300, 50, ["alpine:latest"], []⟩, 600,
    [Event.inspect "a180b24e38ed" (Except.ok ⟨"a180b24e38ed", ["alpine:latest"], []⟩),
      Event.remove "alpine:latest" ⟨false, true⟩ none], true, 250⟩

/-- The inspect answer of an image with four tags and a client that never
fails, as in `TestCollectImages_SkipWhitelist` without the whitelist. -/
def fourTagsCollector : collector Nat :=
  newCollector (mockClient (Except.ok oneImageUsage) [whitelistInfo] [])

/-- The snapshot of `TestCollectImages_MutliError`. -/
def multiErrorUsage : DiskUsage :=
  ⟨1, [untaggedImage "a180b24e38ed" 0 0, untaggedImage "4e38e38c8ce0" 0 0], []⟩

/-- The collector of `TestCollectImages_MutliError`: removing the first image
fails. -/
def multiErrorCollector : collector Nat :=
  newCollector (mockClient (Except.ok multiErrorUsage)
    [⟨"a180b24e38ed", [], []⟩, ⟨"4e38e38c8ce0", [], []⟩] ["a180b24e38ed"])

/-- The first iteration of the pass of `TestCollectImages_MutliError`. -/
def multiErrorFirstIteration : Iteration :=
  ⟨untaggedImage "a180b24e38ed" 0 0, 1,
    [Event.inspect "a180b24e38ed" (Except.ok ⟨"a180b24e38ed", [], []⟩),
      Event.remove "a180b24e38ed" ⟨false, false⟩
        (some (GoError.plain "cannot remove container"))], false, 1⟩

/-- A collector whose client cannot answer `DiskUsage`. -/
def noUsageCollector : collector Nat :=
  newCollector (mockClient (Except.error (GoError.plain "cannot get disk usage")) [] [])

/-- The options of `TestOptions`, in the order of the test; five hours are
18000000000000 nanoseconds. -/
def testOptions : List (CollectorOption Nat) :=
  [WithImageWhitelist ["foo"], WithThreshold 42, WithWhitelist ["bar"],
    WithMinImageAge 18000000000000, WithDanglingImagesCollection true,
    WithImageRemoveOptions ⟨true, true⟩]

/-- A snapshot whose one image reports a `SharedSize` of -1. -/
def negativeSharedSizeUsage : DiskUsage :=
  ⟨1, [untaggedImage "a180b24e38ed" 0 (-1)], []⟩

/-- A collector with `PruneChildren` set over that snapshot. -/
def negativeSharedSizeCollector : collector Nat :=
  { newCollector (mockClient (Except.ok negativeSharedSizeUsage)
      [⟨"a180b24e38ed", [], []⟩] []) with
    imageRemoveOptions := ⟨false, true⟩ }

/-- A snapshot whose one image reports the largest `int64` as `Size` and as
`SharedSize`. -/
def overflowUsage : DiskUsage :=
  ⟨0, [untaggedImage "a180b24e38ed" 9223372036854775807 9223372036854775807], []⟩

/-- A collector with `PruneChildren` set over that snapshot. -/
def overflowCollector : collector Nat :=
  { newCollector (mockClient (Except.ok overflowUsage) [⟨"a180b24e38ed", [], []⟩] []) with
    imageRemoveOptions := ⟨false, true⟩ }

/-- A collector over the snapshot of one image whose client answers every
`ImageRemove` call with a `*multierror.Error` of two entries. -/
def aggregateErrorCollector : collector Nat :=
  newCollector
    { mockClient (Except.ok oneImageUsage) [⟨"a180b24e38ed", [], []⟩] [] with
      ImageRemove := fun n _ _ =>
        (some (GoError.multi [GoError.plain "image is being used",
          GoError.plain "image has dependent children"]), n + 1) }

/-- A collector over the snapshot of `TestCollectImages_MutliError` whose
client does not know the first image. -/
def inspectFailureCollector : collector Nat :=
  newCollector (mockClient (Except.ok multiErrorUsage) [⟨"4e38e38c8ce0", [], []⟩] [])

/-- The first iteration of the pass of `inspectFailureCollector`. -/
def inspectFailureIteration : Iteration :=
  ⟨untaggedImage "a180b24e38ed" 0 0, 1,
    [Event.inspect "a180b24e38ed" (Except.error (GoError.plain "no such image"))], false, 1⟩

/-- A collector whose client fails to remove the third of the four tags of
`whitelistInfo`. -/
def thirdTagFailsCollector : collector Nat :=
  newCollector (mockClient (Except.ok oneImageUsage) [whitelistInfo] ["drone/drone:1"])

/-- A snapshot of two images, the first of which has two tags. -/
def partialRemovalUsage : DiskUsage :=
  ⟨600, [⟨"a180b24e38ed", "", 359596800, 300, 50, ["alpine:latest", "alpine:3"], []⟩,
      ⟨"4e38e38c8ce0", "", 359596800, 300, 50, ["busybox:latest"], []⟩], []⟩

/-- A collector with threshold 300 over that snapshot, whose client removes the
first tag of the first image and fails on the second. -/
def partialRemovalCollector : collector Nat :=
  { newCollector (mockClient (Except.ok partialRemovalUsage)
      [⟨"a180b24e38ed", ["alpine:latest", "alpine:3"], []⟩,
        ⟨"4e38e38c8ce0", ["busybox:latest"], []⟩] ["alpine:3"]) with
    threshold := 300 }

/-- The first iteration of the pass of `partialRemovalCollector`. -/
def partialRemovalIteration : Iteration :=
  ⟨⟨"a180b24e38ed", "", 359596800, 300, 50, ["alpine:latest", "alpine:3"], []⟩, 600,
    [Event.inspect "a180b24e38ed"
        (Except.ok ⟨"a180b24e38ed", ["alpine:latest", "alpine:3"], []⟩),
      Event.remove "alpine:latest" ⟨false, false⟩ none,
      Event.remove "alpine:3" ⟨false, false⟩ (some (GoError.plain "cannot remove container"))],
    false, 600⟩

/-- The first iteration of the shared-size test without `PruneChildren`: it
leaves the running size at the threshold of 300. -/
def exactThresholdIteration : Iteration :=
  ⟨⟨"a180b24e38ed", "", 359596800, 300, 50, ["alpine:latest"], []⟩, 600,
    [Event.inspect "a180b24e38ed" (Except.ok ⟨"a180b24e38ed", ["alpine:latest"], []⟩),
      Event.remove "alpine:latest" ⟨false, false⟩ none], true, 300⟩

/-- A collector with threshold 1 over the snapshot of one image, whose
`LayersSize` is 1. -/
def exactThresholdCollector : collector Nat :=
  { newCollector (mockClient (Except.ok oneImageUsage) [⟨"a180b24e38ed", [], []⟩] []) with
    threshold := 1 }

/-- An image whose `Created` is the largest `int64`. -/
def farFutureImage : ImageSummary :=
  ⟨"a180b24e38ed", "", 9223372036854775807, 0, 0, [], []⟩

/-- A collector with no minimum image age over a snapshot of that one image. -/
def farFutureCollector : collector Nat :=
  newCollector (mockClient (Except.ok ⟨1, [farFutureImage], []⟩) [⟨"a180b24e38ed", [], []⟩] [])

/-- A snapshot whose one image is listed with a tag and a digest that the
inspect answer of the client no longer carries. -/
def staleSummaryUsage : DiskUsage :=
  ⟨1, [⟨"a180b24e38ed", "", 359596800, 0, 0, ["stale:1.0"], ["stale@sha256:0000"]⟩], []⟩

/-- A collector over that snapshot; the client answers the inspect call with
the tag `alpine:latest`. -/
def staleSummaryCollector : collector Nat :=
  newCollector (mockClient (Except.ok staleSummaryUsage)
    [⟨"a180b24e38ed", ["alpine:latest"], []⟩] [])

/-- The only iteration of the pass of `staleSummaryCollector`. -/
def staleSummaryIteration : Iteration :=
  ⟨⟨"a180b24e38ed", "", 359596800, 0, 0, ["stale:1.0"], ["stale@sha256:0000"]⟩, 1,
    [Event.inspect "a180b24e38ed" (Except.ok ⟨"a180b24e38ed", ["alpine:latest"], []⟩),
      Event.remove "alpine:latest" ⟨false, false⟩ none], true, 1⟩

/-! ## Lemmas on the loop body -/

theorem wrap64_sub64 (a b d : Int) : sub64 (sub64 a b) d = wrap64 (a - (b + d)) := by
  unfold sub64 wrap64
  omega

theorem wrap64_of_range (x : Int) (h1 : -9223372036854775808 ≤ x)
    (h2 : x < 9223372036854775808) : wrap64 x = x := by
  unfold wrap64
  omega

theorem wrap64_of_high (x : Int) (h1 : 9223372036854775808 ≤ x)
    (h2 : x < 27670116110564327424) : wrap64 x = x - 18446744073709551616 := by
  unfold wrap64
  omega

theorem wrap64_of_low (x : Int) (h1 : -27670116110564327424 ≤ x)
    (h2 : x < -9223372036854775808) : wrap64 x = x + 18446744073709551616 := by
  unfold wrap64
  omega

/-- Go's quotient and remainder by 10^9 in terms of the rounded-down ones. -/
theorem tdiv_cases (d : Int) :
    (0 ≤ d ∧ Int.tdiv d 1000000000 = d / 1000000000 ∧
      Int.tmod d 1000000000 = d % 1000000000) ∨
    (d < 0 ∧ Int.tdiv d 1000000000 = -((-d) / 1000000000) ∧
      Int.tmod d 1000000000 = d + 1000000000 * ((-d) / 1000000000)) := by
  rcases Int.lt_or_le d 0 with h | h
  · right
    have h1 : Int.tdiv d 1000000000 = -((-d) / 1000000000) := by
      have : d = -(-d) := by omega
      rw [this, Int.neg_tdiv, Int.tdiv_eq_ediv (by omega) (by omega)]
      simp
    have h2 := Int.tdiv_add_tmod d 1000000000
    rw [h1] at h2
    exact ⟨h, h1, by omega⟩
  · left
    exact ⟨h, Int.tdiv_eq_ediv h (by omega), Int.tmod_eq_emod h (by omega)⟩

/-- Adding a duration to a time with no nanoseconds: the seconds grow by the
rounded-down quotient and the nanoseconds are the non-negative remainder. -/
theorem Time_Add_unix (sec d : Int) :
    Time.Add ⟨sec, 0⟩ d = Time.addSec ⟨sec, d % 1000000000⟩ (d / 1000000000) := by
  unfold Time.Add
  rcases tdiv_cases d with ⟨hd0, hd1, hd2⟩ | ⟨hd0, hd1, hd2⟩
  · rw [hd1, hd2]
    have h1 : ¬ (0 + d % 1000000000 ≥ 1000000000) := by omega
    have h2 : ¬ (0 + d % 1000000000 < 0) := by omega
    rw [if_neg h1, if_neg h2, Int.zero_add]
  · rw [hd1, hd2]
    have h1 : ¬ (0 + (d + 1000000000 * (-d / 1000000000)) ≥ 1000000000) := by omega
    rw [if_neg h1]
    by_cases h2 : 0 + (d + 1000000000 * (-d / 1000000000)) < 0
    · rw [if_pos h2]
      have h3 : 0 + (d + 1000000000 * (-d / 1000000000)) + 1000000000 = d % 1000000000 := by
        omega
      have h4 : -(-d / 1000000000) - 1 = d / 1000000000 := by omega
      rw [h3, h4]
    · rw [if_neg h2]
      have h3 : 0 + (d + 1000000000 * (-d / 1000000000)) = d % 1000000000 := by omega
      have h4 : -(-d / 1000000000) = d / 1000000000 := by omega
      rw [h3, h4]

theorem addSec_exact (sec nsec d : Int) (h1 : -9223372036854775808 ≤ sec + d)
    (h2 : sec + d < 9223372036854775808) :
    Time.addSec ⟨sec, nsec⟩ d = ⟨sec + d, nsec⟩ := by
  unfold Time.addSec
  simp only [wrap64_of_range _ h1 h2]
  have h : decide (sec + d > sec) = decide (d > 0) := by
    rw [decide_eq_decide]
    constructor <;> intro h <;> omega
  rw [if_pos h]

theorem addSec_high (sec nsec d : Int) (h0 : sec < 9223372036854775808)
    (hd : d < 9223372036854775808) (h1 : 9223372036854775808 ≤ sec + d) :
    Time.addSec ⟨sec, nsec⟩ d = ⟨9223372036854775807, nsec⟩ := by
  unfold Time.addSec
  simp only [wrap64_of_high _ h1 (by omega)]
  have h : ¬ (decide (sec + d - 18446744073709551616 > sec) = decide (d > 0)) := by
    rw [decide_eq_decide]
    intro h
    have := h.2 (by omega)
    omega
  rw [if_neg h, if_pos (by omega)]

theorem addSec_low (sec nsec d : Int) (h0 : -9223372036854775808 ≤ sec)
    (hd : -9223372036854775808 ≤ d) (h2 : sec + d < -9223372036854775808) :
    Time.addSec ⟨sec, nsec⟩ d = ⟨-9223372036854775807, nsec⟩ := by
  unfold Time.addSec
  simp only [wrap64_of_low _ (by omega) h2]
  have h : ¬ (decide (sec + d + 18446744073709551616 > sec) = decide (d > 0)) := by
    rw [decide_eq_decide]
    intro h
    have := h.1 (by omega)
    omega
  rw [if_neg h, if_neg (by omega)]

/-- For `int64` arguments the time the guard compares with `now` is never
later than the exact instant `Created + minImageAge`. -/
theorem addSec_unix_le (created minImageAge : Int)
    (h1 : -9223372036854775808 ≤ created) (h2 : created < 9223372036854775808)
    (h3 : -9223372036854775808 ≤ minImageAge) (h4 : minImageAge < 9223372036854775808) :
    (Time.addSec ⟨wrap64 (created + unixToInternal), minImageAge % 1000000000⟩
        (minImageAge / 1000000000)).sec ≤
        created + unixToInternal + minImageAge / 1000000000 ∧
      (Time.addSec ⟨wrap64 (created + unixToInternal), minImageAge % 1000000000⟩
        (minImageAge / 1000000000)).nsec = minImageAge % 1000000000 := by
  unfold unixToInternal
  have hq1 : -9223372037 ≤ minImageAge / 1000000000 := by omega
  have hq2 : minImageAge / 1000000000 ≤ 9223372036 := by omega
  generalize minImageAge / 1000000000 = q at hq1 hq2 ⊢
  generalize minImageAge % 1000000000 = m
  rcases Int.lt_or_le (created + 62135596800) 9223372036854775808 with hu | hu
  · rw [wrap64_of_range _ (by omega) hu]
    rcases Int.lt_or_le (created + 62135596800 + q) 9223372036854775808 with ha | ha
    · rw [addSec_exact _ _ _ (by omega) ha]
      exact ⟨le_refl _, rfl⟩
    · rw [addSec_high _ _ _ (by omega) (by omega) ha]
      exact ⟨by show (9223372036854775807 : Int) ≤ _; omega, rfl⟩
  · rw [wrap64_of_high _ hu (by omega)]
    rcases Int.lt_or_le (created + 62135596800 - 18446744073709551616 + q)
      (-9223372036854775808) with ha | ha
    · rw [addSec_low _ _ _ (by omega) (by omega) ha]
      exact ⟨by show (-9223372036854775807 : Int) ≤ _; omega, rfl⟩
    · rw [addSec_exact _ _ _ ha (by omega)]
      exact ⟨by show created + 62135596800 - 18446744073709551616 + q ≤ _; omega, rfl⟩

/-- When neither `time.Unix` nor `Time.Add` overflows, that time is the exact
instant. -/
theorem addSec_unix_eq (created minImageAge : Int)
    (h1 : -9223372036854775808 ≤ created)
    (h3 : -9223372036854775808 ≤ minImageAge)
    (hu : created + 62135596800 < 9223372036854775808)
    (ha : created + 62135596800 + minImageAge / 1000000000 < 9223372036854775808) :
    Time.addSec ⟨wrap64 (created + unixToInternal), minImageAge % 1000000000⟩
        (minImageAge / 1000000000) =
      ⟨created + unixToInternal + minImageAge / 1000000000, minImageAge % 1000000000⟩ := by
  unfold unixToInternal
  have hq1 : -9223372037 ≤ minImageAge / 1000000000 := by omega
  rw [wrap64_of_range _ (by omega) hu, addSec_exact _ _ _ (by omega) ha]

/-- An image whose exact instant `Created + minImageAge` is at or before `now`
passes the age guard. -/
theorem notOldEnough_of_le (image : ImageSummary) (minImageAge now : Int)
    (h : image.Created * 1000000000 + minImageAge ≤ now) :
    notOldEnough image minImageAge now = false := by
  unfold notOldEnough
  split
  · rename_i hr
    simp only [isInt64, Bool.and_eq_true, decide_eq_true_eq] at hr
    obtain ⟨⟨h1, h2⟩, h3, h4⟩ := hr
    obtain ⟨hle, hn⟩ := addSec_unix_le image.Created minImageAge h1 h2 h3 h4
    unfold Time.Unix
    rw [Time_Add_unix]
    unfold Time.After clockTime
    rw [hn]
    generalize (Time.addSec ⟨wrap64 (image.Created + unixToInternal),
      minImageAge % 1000000000⟩ (minImageAge / 1000000000)).sec = ext at hle ⊢
    unfold unixToInternal at hle ⊢
    simp only [Bool.or_eq_false_iff, Bool.and_eq_false_iff, decide_eq_false_iff_not,
      decide_eq_true_eq]
    rcases Int.lt_trichotomy ext (now / 1000000000 + 62135596800) with hc | hc | hc
    · constructor
      · omega
      · left; omega
    · constructor
      · omega
      · right; omega
    · omega
  · simp; omega

/-- An image whose exact instant `Created + minImageAge` is after `now` is
held back by the age guard, provided `time.Unix` and `Time.Add` do not
overflow. -/
theorem notOldEnough_of_lt (image : ImageSummary) (minImageAge now : Int)
    (hu : image.Created + 62135596800 < 9223372036854775808)
    (ha : image.Created + 62135596800 + minImageAge / 1000000000 < 9223372036854775808)
    (h : now < image.Created * 1000000000 + minImageAge) :
    notOldEnough image minImageAge now = true := by
  unfold notOldEnough
  split
  · rename_i hr
    simp only [isInt64, Bool.and_eq_true, decide_eq_true_eq] at hr
    obtain ⟨⟨h1, h2⟩, h3, h4⟩ := hr
    unfold Time.Unix
    rw [Time_Add_unix, addSec_unix_eq image.Created minImageAge h1 h3 hu ha]
    unfold Time.After clockTime unixToInternal
    simp only [Bool.or_eq_true, Bool.and_eq_true, decide_eq_true_eq]
    rcases Int.lt_trichotomy (image.Created + minImageAge / 1000000000)
      (now / 1000000000) with hc | hc | hc
    · omega
    · right; omega
    · left; omega
  · simp; omega

theorem removalAttributes_eq (info : ImageInspect) :
    removalAttributes info =
      if info.RepoTags ≠ [] then info.RepoTags
      else if info.RepoDigests ≠ [] then info.RepoDigests
      else [info.ID] := by
  unfold removalAttributes
  cases h1 : info.RepoTags with
  | cons a l => simp
  | nil =>
    cases h2 : info.RepoDigests with
    | cons a l => simp
    | nil => simp

/-- When no call of the loop of `removeImage` failed, the loop made one call
per attribute, in order. -/
theorem removeLoop_all_ok {σ : Type} (c : collector σ) (attrs : List String) :
    ∀ s : σ, (∀ ev ∈ (removeLoop c attrs none s).2.2, ev.failed = false) →
      (removeLoop c attrs none s).2.2 =
        attrs.map (fun a => Event.remove a c.imageRemoveOptions none) := by
  induction attrs with
  | nil => intro s _; simp [removeLoop]
  | cons a rest ih =>
    intro s h
    rcases h1 : c.client.ImageRemove s a c.imageRemoveOptions with ⟨r, s1⟩
    cases r with
    | some e => simp [removeLoop, h1, Event.failed] at h
    | none =>
      rcases h2 : removeLoop c rest none s1 with ⟨e2, s2, evs⟩
      have h3 := ih s1
      rw [h2] at h3
      simp [removeLoop, h1, h2, Event.failed] at h ⊢
      exact h3 h

theorem isImageUsed_eq_true_iff (image : ImageSummary) (containers : List Container) :
    isImageUsed image containers = true ↔
      ∃ container ∈ containers,
        container.ImageID = image.ID ∨ container.ImageID = image.ParentID := by
  induction containers with
  | nil => simp [isImageUsed]
  | cons container rest ih =>
    by_cases h : container.ImageID = image.ID ∨ container.ImageID = image.ParentID
    · simp [isImageUsed, h]
    · simp [isImageUsed, h, ih]

theorem loopBody_image {σ : Type} (matcher : List String → List String → Bool)
    (c : collector σ) (df : DiskUsage) (now : Int) (image : ImageSummary)
    (st : LoopState σ) :
    (loopBody matcher c df now image st).2.2.image = image ∧
      (loopBody matcher c df now image st).2.2.sizeBefore = st.size := by
  unfold loopBody
  split
  · exact ⟨rfl, rfl⟩
  · split
    · exact ⟨rfl, rfl⟩
    · split
      · exact ⟨rfl, rfl⟩
      · split
        · exact ⟨rfl, rfl⟩
        · split <;> exact ⟨rfl, rfl⟩

theorem loopBody_used {σ : Type} (matcher : List String → List String → Bool)
    (c : collector σ) (df : DiskUsage) (now : Int) (image : ImageSummary)
    (st : LoopState σ) (h : isImageUsed image df.Containers = true) :
    loopBody matcher c df now image st =
      (Flow.next, st, ⟨image, st.size, [], false, st.size⟩) := by
  simp [loopBody, h]

theorem loopBody_young {σ : Type} (matcher : List String → List String → Bool)
    (c : collector σ) (df : DiskUsage) (now : Int) (image : ImageSummary)
    (st : LoopState σ) (h : notOldEnough image c.minImageAge now = true) :
    loopBody matcher c df now image st =
      (Flow.next, st, ⟨image, st.size, [], false, st.size⟩) := by
  simp [loopBody, h]

theorem loopBody_inspect_error {σ : Type} (matcher : List String → List String → Bool)
    (c : collector σ) (df : DiskUsage) (now : Int) (image : ImageSummary)
    (st : LoopState σ) (err : GoError) (s1 : σ)
    (hu : isImageUsed image df.Containers = false)
    (hy : notOldEnough image c.minImageAge now = false)
    (hi : c.client.ImageInspectWithRaw st.state image.ID = (Except.error err, s1)) :
    loopBody matcher c df now image st =
      (Flow.next, ⟨st.size, some (multierrorAppend st.result err), s1⟩,
        ⟨image, st.size, [Event.inspect image.ID (Except.error err)], false, st.size⟩) := by
  simp [loopBody, hu, hy, hi]

theorem loopBody_reserved {σ : Type} (matcher : List String → List String → Bool)
    (c : collector σ) (df : DiskUsage) (now : Int) (image : ImageSummary)
    (st : LoopState σ) (info : ImageInspect) (s1 : σ)
    (hu : isImageUsed image df.Containers = false)
    (hy : notOldEnough image c.minImageAge now = false)
    (hi : c.client.ImageInspectWithRaw st.state image.ID = (Except.ok info, s1))
    (hm : matcher info.RepoTags c.reserved = true) :
    loopBody matcher c df now image st =
      (Flow.next, ⟨st.size, st.result, s1⟩,
        ⟨image, st.size, [Event.inspect image.ID (Except.ok info)], false, st.size⟩) := by
  simp [loopBody, hu, hy, hi, hm]

theorem loopBody_remove_error {σ : Type} (matcher : List String → List String → Bool)
    (c : collector σ) (df : DiskUsage) (now : Int) (image : ImageSummary)
    (st : LoopState σ) (info : ImageInspect) (s1 s2 : σ) (err : GoError)
    (events : List Event)
    (hu : isImageUsed image df.Containers = false)
    (hy : notOldEnough image c.minImageAge now = false)
    (hi : c.client.ImageInspectWithRaw st.state image.ID = (Except.ok info, s1))
    (hm : matcher info.RepoTags c.reserved = false)
    (hr : removeImage c info s1 = (some err, s2, events)) :
    loopBody matcher c df now image st =
      (Flow.next, ⟨st.size, some (multierrorAppend st.result err), s2⟩,
        ⟨image, st.size, Event.inspect image.ID (Except.ok info) :: events, false,
          st.size⟩) := by
  simp [loopBody, hu, hy, hi, hm, hr]

theorem loopBody_remove_ok {σ : Type} (matcher : List String → List String → Bool)
    (c : collector σ) (df : DiskUsage) (now : Int) (image : ImageSummary)
    (st : LoopState σ) (info : ImageInspect) (s1 s2 : σ) (events : List Event)
    (hu : isImageUsed image df.Containers = false)
    (hy : notOldEnough image c.minImageAge now = false)
    (hi : c.client.ImageInspectWithRaw st.state image.ID = (Except.ok info, s1))
    (hm : matcher info.RepoTags c.reserved = false)
    (hr : removeImage c info s1 = (none, s2, events)) :
    loopBody matcher c df now image st =
      (if sizeAfterRemoval c st.size image < c.threshold then Flow.stop else Flow.next,
        ⟨sizeAfterRemoval c st.size image, st.result, s2⟩,
        ⟨image, st.size, Event.inspect image.ID (Except.ok info) :: events, true,
          sizeAfterRemoval c st.size image⟩) := by
  simp only [loopBody, hu, hy, hi, hm, hr, sizeAfterRemoval]
  by_cases hs : shouldConsiderSharedSpace c = true <;> simp [hs]

theorem removeLoop_events {σ : Type} (c : collector σ) (attrs : List String) :
    ∀ (err : Option GoError) (s : σ) (ev : Event), ev ∈ (removeLoop c attrs err s).2.2 →
      ∃ a answer, a ∈ attrs ∧ ev = Event.remove a c.imageRemoveOptions answer := by
  induction attrs with
  | nil => intro err s ev h; simp [removeLoop] at h
  | cons a rest ih =>
    intro err s ev h
    rcases h1 : c.client.ImageRemove s a c.imageRemoveOptions with ⟨r, s1⟩
    cases r with
    | some e =>
      simp [removeLoop, h1] at h
      exact ⟨a, _, by simp, h⟩
    | none =>
      rcases h2 : removeLoop c rest none s1 with ⟨e2, s2, evs⟩
      simp [removeLoop, h1, h2] at h
      rcases h with h | h
      · exact ⟨a, none, by simp, h⟩
      · have hmem : ev ∈ (removeLoop c rest none s1).2.2 := by rw [h2]; exact h
        obtain ⟨b, answer, hb, hev⟩ := ih none s1 ev hmem
        exact ⟨b, answer, by simp [hb], hev⟩

/-- The five ways through the loop body. -/
theorem loopBody_cases {σ : Type} (matcher : List String → List String → Bool)
    (c : collector σ) (df : DiskUsage) (now : Int) (image : ImageSummary)
    (st : LoopState σ) :
    ((isImageUsed image df.Containers = true ∨ notOldEnough image c.minImageAge now = true) ∧
      loopBody matcher c df now image st =
        (Flow.next, st, ⟨image, st.size, [], false, st.size⟩)) ∨
    (∃ err s1, isImageUsed image df.Containers = false ∧
      notOldEnough image c.minImageAge now = false ∧
      c.client.ImageInspectWithRaw st.state image.ID = (Except.error err, s1) ∧
      loopBody matcher c df now image st =
        (Flow.next, ⟨st.size, some (multierrorAppend st.result err), s1⟩,
          ⟨image, st.size, [Event.inspect image.ID (Except.error err)], false, st.size⟩)) ∨
    (∃ info s1, isImageUsed image df.Containers = false ∧
      notOldEnough image c.minImageAge now = false ∧
      c.client.ImageInspectWithRaw st.state image.ID = (Except.ok info, s1) ∧
      matcher info.RepoTags c.reserved = true ∧
      loopBody matcher c df now image st =
        (Flow.next, ⟨st.size, st.result, s1⟩,
          ⟨image, st.size, [Event.inspect image.ID (Except.ok info)], false, st.size⟩)) ∨
    (∃ info s1 s2 err events, isImageUsed image df.Containers = false ∧
      notOldEnough image c.minImageAge now = false ∧
      c.client.ImageInspectWithRaw st.state image.ID = (Except.ok info, s1) ∧
      matcher info.RepoTags c.reserved = false ∧
      removeImage c info s1 = (some err, s2, events) ∧
      loopBody matcher c df now image st =
        (Flow.next, ⟨st.size, some (multierrorAppend st.result err), s2⟩,
          ⟨image, st.size, Event.inspect image.ID (Except.ok info) :: events, false,
            st.size⟩)) ∨
    (∃ info s1 s2 events, isImageUsed image df.Containers = false ∧
      notOldEnough image c.minImageAge now = false ∧
      c.client.ImageInspectWithRaw st.state image.ID = (Except.ok info, s1) ∧
      matcher info.RepoTags c.reserved = false ∧
      removeImage c info s1 = (none, s2, events) ∧
      loopBody matcher c df now image st =
        (if sizeAfterRemoval c st.size image < c.threshold then Flow.stop else Flow.next,
          ⟨sizeAfterRemoval c st.size image, st.result, s2⟩,
          ⟨image, st.size, Event.inspect image.ID (Except.ok info) :: events, true,
            sizeAfterRemoval c st.size image⟩)) := by
  cases hu : isImageUsed image df.Containers with
  | true => exact Or.inl ⟨Or.inl rfl, loopBody_used matcher c df now image st hu⟩
  | false =>
    cases hy : notOldEnough image c.minImageAge now with
    | true => exact Or.inl ⟨Or.inr rfl, loopBody_young matcher c df now image st hy⟩
    | false =>
      rcases hi : c.client.ImageInspectWithRaw st.state image.ID with ⟨r, s1⟩
      cases r with
      | error err =>
        exact Or.inr (Or.inl ⟨err, s1, rfl, rfl, rfl,
          loopBody_inspect_error matcher c df now image st err s1 hu hy hi⟩)
      | ok info =>
        cases hm : matcher info.RepoTags c.reserved with
        | true =>
          exact Or.inr (Or.inr (Or.inl ⟨info, s1, rfl, rfl, rfl, hm,
            loopBody_reserved matcher c df now image st info s1 hu hy hi hm⟩))
        | false =>
          rcases hr : removeImage c info s1 with ⟨e, s2, events⟩
          cases e with
          | some err =>
            exact Or.inr (Or.inr (Or.inr (Or.inl ⟨info, s1, s2, err, events, rfl, rfl, rfl,
              hm, hr, loopBody_remove_error matcher c df now image st info s1 s2 err events
                hu hy hi hm hr⟩)))
          | none =>
            exact Or.inr (Or.inr (Or.inr (Or.inr ⟨info, s1, s2, events, rfl, rfl, rfl,
              hm, hr, loopBody_remove_ok matcher c df now image st info s1 s2 events
                hu hy hi hm hr⟩)))

/-- The calls of `removeImage` are `ImageRemove` calls. -/
theorem removeImage_not_inspect {σ : Type} (c : collector σ) (info : ImageInspect) (s : σ)
    (imageID : String) (answer : Except GoError ImageInspect) :
    Event.inspect imageID answer ∉ (removeImage c info s).2.2 := by
  intro h
  obtain ⟨a, r, -, heq⟩ := removeLoop_events c _ none s _ h
  cases heq

/-- The loop of `removeImage` returns nil exactly when none of its calls
failed. -/
theorem removeLoop_nil_iff {σ : Type} (c : collector σ) (attrs : List String) :
    ∀ s : σ, (removeLoop c attrs none s).1 = none ↔
      ∀ ev ∈ (removeLoop c attrs none s).2.2, ev.failed = false := by
  induction attrs with
  | nil => intro s; simp [removeLoop]
  | cons a rest ih =>
    intro s
    rcases h1 : c.client.ImageRemove s a c.imageRemoveOptions with ⟨r, s1⟩
    cases r with
    | some e => simp [removeLoop, h1, Event.failed]
    | none =>
      rcases h2 : removeLoop c rest none s1 with ⟨e2, s2, evs⟩
      have h3 := ih s1
      rw [h2] at h3
      simp [removeLoop, h1, h2, Event.failed]
      simpa using h3

/-- What one run of the loop body leaves behind, in terms of its record. -/
theorem loopBody_summary {σ : Type} (matcher : List String → List String → Bool)
    (c : collector σ) (df : DiskUsage) (now : Int) (image : ImageSummary)
    (st : LoopState σ) :
    (loopBody matcher c df now image st).2.1.size =
        (loopBody matcher c df now image st).2.2.sizeAfter ∧
      ((loopBody matcher c df now image st).1 = Flow.stop ↔
        ((loopBody matcher c df now image st).2.2.removed = true ∧
          (loopBody matcher c df now image st).2.2.sizeAfter < c.threshold)) ∧
      ((loopBody matcher c df now image st).2.1.result = none ↔
        (st.result = none ∧
          ∀ ev ∈ (loopBody matcher c df now image st).2.2.events, ev.failed = false)) ∧
      ((loopBody matcher c df now image st).2.2.removed = false →
        (loopBody matcher c df now image st).2.2.sizeAfter = st.size) ∧
      ((loopBody matcher c df now image st).2.2.removed = true →
        (loopBody matcher c df now image st).2.2.sizeAfter =
          sizeAfterRemoval c st.size image) := by
  rcases loopBody_cases matcher c df now image st with
    ⟨-, h⟩ | ⟨err, s2, -, -, -, h⟩ | ⟨info1, s2, -, -, -, hm, h⟩ |
    ⟨info1, s2, s3, err, events, -, -, -, hm, hr, h⟩ |
    ⟨info1, s2, s3, events, -, -, -, hm, hr, h⟩
  · rw [h]; simp
  · rw [h]; simp [Event.failed]
  · rw [h]; simp [Event.failed]
  · rw [h]
    have h1 := removeLoop_nil_iff c (removalAttributes info1) s2
    unfold removeImage at hr
    rw [hr] at h1
    simp only [reduceCtorEq, false_iff] at h1
    simp [Event.failed]
    intro _
    simpa using h1
  · rw [h]
    have h1 := removeLoop_nil_iff c (removalAttributes info1) s2
    unfold removeImage at hr
    rw [hr] at h1
    simp only [true_iff] at h1
    simp [Event.failed]
    intro _ ev hev
    exact h1 ev hev

/-- An iteration that counts as a removal made no failing call. -/
theorem loopBody_removed_events {σ : Type} (matcher : List String → List String → Bool)
    (c : collector σ) (df : DiskUsage) (now : Int) (image : ImageSummary)
    (st : LoopState σ) (h : (loopBody matcher c df now image st).2.2.removed = true) :
    ∀ ev ∈ (loopBody matcher c df now image st).2.2.events, ev.failed = false := by
  rcases loopBody_cases matcher c df now image st with
    ⟨-, h1⟩ | ⟨err, s2, -, -, -, h1⟩ | ⟨info1, s2, -, -, -, hm, h1⟩ |
    ⟨info1, s2, s3, err, events, -, -, -, hm, hr, h1⟩ |
    ⟨info1, s2, s3, events, -, -, -, hm, hr, h1⟩
  · rw [h1] at h; simp at h
  · rw [h1] at h; simp at h
  · rw [h1] at h; simp at h
  · rw [h1] at h; simp at h
  · rw [h1]
    have h2 := removeLoop_nil_iff c (removalAttributes info1) s2
    unfold removeImage at hr
    rw [hr] at h2
    simp only [true_iff] at h2
    intro ev hev
    simp at hev
    rcases hev with hev | hev
    · rw [hev]; rfl
    · exact h2 ev hev

/-! ## Lemmas on the loops -/

theorem imagesLoop_cons_stop {σ : Type} (matcher : List String → List String → Bool)
    (c : collector σ) (df : DiskUsage) (now : Int) (image : ImageSummary)
    (rest : List ImageSummary) (st : LoopState σ)
    (h : (loopBody matcher c df now image st).1 = Flow.stop) :
    imagesLoop matcher c df now (image :: rest) st =
      ((loopBody matcher c df now image st).2.1, [(loopBody matcher c df now image st).2.2]) := by
  rcases h1 : loopBody matcher c df now image st with ⟨flow, st1, it1⟩
  rw [h1] at h
  simp at h
  subst h
  simp [imagesLoop, h1]

theorem imagesLoop_cons_next {σ : Type} (matcher : List String → List String → Bool)
    (c : collector σ) (df : DiskUsage) (now : Int) (image : ImageSummary)
    (rest : List ImageSummary) (st : LoopState σ)
    (h : (loopBody matcher c df now image st).1 = Flow.next) :
    imagesLoop matcher c df now (image :: rest) st =
      ((imagesLoop matcher c df now rest (loopBody matcher c df now image st).2.1).1,
        (loopBody matcher c df now image st).2.2 ::
          (imagesLoop matcher c df now rest (loopBody matcher c df now image st).2.1).2) := by
  rcases h1 : loopBody matcher c df now image st with ⟨flow, st1, it1⟩
  rw [h1] at h
  simp at h
  subst h
  simp [imagesLoop, h1]

theorem flow_cases (f : Flow) : f = Flow.stop ∨ f = Flow.next := by
  cases f
  · exact Or.inr rfl
  · exact Or.inl rfl

theorem imagesLoop_mem {σ : Type} (matcher : List String → List String → Bool)
    (c : collector σ) (df : DiskUsage) (now : Int) (images : List ImageSummary) :
    ∀ (st : LoopState σ) (it : Iteration),
      it ∈ (imagesLoop matcher c df now images st).2 →
      ∃ image st1, image ∈ images ∧ it = (loopBody matcher c df now image st1).2.2 := by
  induction images with
  | nil => intro st it h; simp [imagesLoop] at h
  | cons image rest ih =>
    intro st it h
    rcases h1 : loopBody matcher c df now image st with ⟨flow, st1, it1⟩
    have hit1 : it1 = (loopBody matcher c df now image st).2.2 := by rw [h1]
    cases flow with
    | stop =>
      simp [imagesLoop, h1] at h
      exact ⟨image, st, by simp, by rw [h, hit1]⟩
    | next =>
      rcases h2 : imagesLoop matcher c df now rest st1 with ⟨st2, its⟩
      simp [imagesLoop, h1, h2] at h
      rcases h with h | h
      · exact ⟨image, st, by simp, by rw [h, hit1]⟩
      · have hmem : it ∈ (imagesLoop matcher c df now rest st1).2 := by rw [h2]; exact h
        obtain ⟨image1, st3, hi, hit⟩ := ih st1 it hmem
        exact ⟨image1, st3, by simp [hi], hit⟩

/-- Iterations follow the order of the images. -/
theorem imagesLoop_order {σ : Type} (matcher : List String → List String → Bool)
    (c : collector σ) (df : DiskUsage) (now : Int) (images : List ImageSummary) :
    ∀ (st : LoopState σ) (i : Nat) (it : Iteration),
      (imagesLoop matcher c df now images st).2[i]? = some it →
      images[i]? = some it.image := by
  induction images with
  | nil => intro st i it h; simp [imagesLoop] at h
  | cons image rest ih =>
    intro st i it h
    rcases flow_cases (loopBody matcher c df now image st).1 with hf | hf
    · rw [imagesLoop_cons_stop matcher c df now image rest st hf] at h
      cases i with
      | zero =>
        simp at h
        simp [← h, (loopBody_image matcher c df now image st).1]
      | succ j => simp at h
    · rw [imagesLoop_cons_next matcher c df now image rest st hf] at h
      cases i with
      | zero =>
        simp at h
        simp [← h, (loopBody_image matcher c df now image st).1]
      | succ j =>
        simp at h ⊢
        exact ih _ j it h

/-- An iteration that removed its image and brought the running size below
the threshold is the last one. -/
theorem imagesLoop_stop {σ : Type} (matcher : List String → List String → Bool)
    (c : collector σ) (df : DiskUsage) (now : Int) (images : List ImageSummary) :
    ∀ (st : LoopState σ) (i : Nat) (it : Iteration),
      (imagesLoop matcher c df now images st).2[i]? = some it →
      it.removed = true → it.sizeAfter < c.threshold →
      (imagesLoop matcher c df now images st).2.length = i + 1 := by
  induction images with
  | nil => intro st i it h; simp [imagesLoop] at h
  | cons image rest ih =>
    intro st i it h hr hlt
    rcases flow_cases (loopBody matcher c df now image st).1 with hf | hf
    · rw [imagesLoop_cons_stop matcher c df now image rest st hf] at h ⊢
      cases i with
      | zero => simp
      | succ j => simp at h
    · rw [imagesLoop_cons_next matcher c df now image rest st hf] at h ⊢
      cases i with
      | zero =>
        simp at h
        have hs := (loopBody_summary matcher c df now image st).2.1
        rw [h] at hs
        have := hs.2 ⟨hr, hlt⟩
        rw [hf] at this
        cases this
      | succ j =>
        simp at h ⊢
        exact ih _ j it h hr hlt

/-- Any other iteration is followed by the iteration of the next image. -/
theorem imagesLoop_continue {σ : Type} (matcher : List String → List String → Bool)
    (c : collector σ) (df : DiskUsage) (now : Int) (images : List ImageSummary) :
    ∀ (st : LoopState σ) (i : Nat) (it : Iteration),
      (imagesLoop matcher c df now images st).2[i]? = some it →
      ¬ (it.removed = true ∧ it.sizeAfter < c.threshold) →
      i + 1 < images.length →
      i + 1 < (imagesLoop matcher c df now images st).2.length := by
  induction images with
  | nil => intro st i it h; simp [imagesLoop] at h
  | cons image rest ih =>
    intro st i it h hn hlen
    rcases flow_cases (loopBody matcher c df now image st).1 with hf | hf
    · rw [imagesLoop_cons_stop matcher c df now image rest st hf] at h
      cases i with
      | zero =>
        simp at h
        have hs := (loopBody_summary matcher c df now image st).2.1
        rw [h] at hs
        exact absurd (hs.1 hf) hn
      | succ j => simp at h
    · rw [imagesLoop_cons_next matcher c df now image rest st hf] at h ⊢
      cases i with
      | zero =>
        simp at hlen ⊢
        cases rest with
        | nil => simp at hlen
        | cons image2 rest2 =>
          rcases flow_cases
            (loopBody matcher c df now image2 (loopBody matcher c df now image st).2.1).1 with
            hf2 | hf2
          · rw [imagesLoop_cons_stop matcher c df now image2 rest2 _ hf2]; simp
          · rw [imagesLoop_cons_next matcher c df now image2 rest2 _ hf2]; simp
      | succ j =>
        simp at h hlen ⊢
        exact ih _ j it h hn hlen

/-- The running size is handed from each iteration to the next. -/
theorem imagesLoop_chain {σ : Type} (matcher : List String → List String → Bool)
    (c : collector σ) (df : DiskUsage) (now : Int) (images : List ImageSummary) :
    ∀ (st : LoopState σ),
      (∀ it, (imagesLoop matcher c df now images st).2[0]? = some it →
        it.sizeBefore = st.size) ∧
      (∀ (i : Nat) (a b : Iteration),
        (imagesLoop matcher c df now images st).2[i]? = some a →
        (imagesLoop matcher c df now images st).2[i + 1]? = some b →
        b.sizeBefore = a.sizeAfter) := by
  induction images with
  | nil => intro st; simp [imagesLoop]
  | cons image rest ih =>
    intro st
    have h0 := (loopBody_image matcher c df now image st).2
    rcases flow_cases (loopBody matcher c df now image st).1 with hf | hf
    · rw [imagesLoop_cons_stop matcher c df now image rest st hf]
      constructor
      · intro it h
        simp at h
        rw [← h, h0]
      · intro i a b _ hb
        simp at hb
    · rw [imagesLoop_cons_next matcher c df now image rest st hf]
      constructor
      · intro it h
        simp at h
        rw [← h, h0]
      · intro i a b ha hb
        have ih1 := ih (loopBody matcher c df now image st).2.1
        cases i with
        | zero =>
          simp at ha hb
          rw [ih1.1 b hb, ← ha]
          exact (loopBody_summary matcher c df now image st).1
        | succ j =>
          simp at ha hb
          exact ih1.2 j a b ha hb

/-- The aggregate is nil after the loop exactly when it was nil before and no
call of the loop failed. -/
theorem imagesLoop_result {σ : Type} (matcher : List String → List String → Bool)
    (c : collector σ) (df : DiskUsage) (now : Int) (images : List ImageSummary) :
    ∀ (st : LoopState σ),
      (imagesLoop matcher c df now images st).1.result = none ↔
        (st.result = none ∧
          ∀ it ∈ (imagesLoop matcher c df now images st).2, ∀ ev ∈ it.events,
            ev.failed = false) := by
  induction images with
  | nil => intro st; simp [imagesLoop]
  | cons image rest ih =>
    intro st
    have hs := (loopBody_summary matcher c df now image st).2.2.1
    rcases flow_cases (loopBody matcher c df now image st).1 with hf | hf
    · rw [imagesLoop_cons_stop matcher c df now image rest st hf]
      simpa using hs
    · rw [imagesLoop_cons_next matcher c df now image rest st hf]
      simp only [List.mem_cons, forall_eq_or_imp]
      rw [ih, hs]
      tauto

/-- Every iteration is a run of the loop body on the image at its index. -/
theorem imagesLoop_body {σ : Type} (matcher : List String → List String → Bool)
    (c : collector σ) (df : DiskUsage) (now : Int) (images : List ImageSummary) :
    ∀ (st : LoopState σ) (i : Nat) (it : Iteration),
      (imagesLoop matcher c df now images st).2[i]? = some it →
      ∃ image st1, images[i]? = some image ∧
        it = (loopBody matcher c df now image st1).2.2 := by
  induction images with
  | nil => intro st i it h; simp [imagesLoop] at h
  | cons image rest ih =>
    intro st i it h
    rcases flow_cases (loopBody matcher c df now image st).1 with hf | hf
    · rw [imagesLoop_cons_stop matcher c df now image rest st hf] at h
      cases i with
      | zero =>
        simp at h
        exact ⟨image, st, by simp, h.symm⟩
      | succ j => simp at h
    · rw [imagesLoop_cons_next matcher c df now image rest st hf] at h
      cases i with
      | zero =>
        simp at h
        exact ⟨image, st, by simp, h.symm⟩
      | succ j =>
        simp at h
        obtain ⟨image1, st1, h1, h2⟩ := ih _ j it h
        exact ⟨image1, st1, by simpa using h1, h2⟩

theorem imagesLoop_nonempty {σ : Type} (matcher : List String → List String → Bool)
    (c : collector σ) (df : DiskUsage) (now : Int) (images : List ImageSummary)
    (st : LoopState σ) (h : images ≠ []) :
    (imagesLoop matcher c df now images st).2 ≠ [] := by
  cases images with
  | nil => exact absurd rfl h
  | cons image rest =>
    rcases flow_cases (loopBody matcher c df now image st).1 with hf | hf
    · rw [imagesLoop_cons_stop matcher c df now image rest st hf]; simp
    · rw [imagesLoop_cons_next matcher c df now image rest st hf]; simp

theorem collectImages_ok {σ : Type} (matcher : List String → List String → Bool)
    (c : collector σ) (now : Int) (s s1 : σ) (df : DiskUsage)
    (hdf : c.client.DiskUsage s = (Except.ok df, s1)) (hge : ¬ df.LayersSize < c.threshold) :
    collectImages matcher c now s =
      ⟨(imagesLoop matcher c df now df.Images ⟨df.LayersSize, none, s1⟩).1.result,
        Except.ok df,
        (imagesLoop matcher c df now df.Images ⟨df.LayersSize, none, s1⟩).2,
        (imagesLoop matcher c df now df.Images ⟨df.LayersSize, none, s1⟩).1.state⟩ := by
  simp [collectImages, hdf, hge]

theorem collectImages_iterations {σ : Type} (matcher : List String → List String → Bool)
    (c : collector σ) (now : Int) (s : σ) (h : (collectImages matcher c now s).iterations ≠ []) :
    ∃ df s1, c.client.DiskUsage s = (Except.ok df, s1) ∧ ¬ df.LayersSize < c.threshold ∧
      (collectImages matcher c now s).iterations =
        (imagesLoop matcher c df now df.Images ⟨df.LayersSize, none, s1⟩).2 := by
  rcases hdu : c.client.DiskUsage s with ⟨r, s1⟩
  cases r with
  | error err => simp [collectImages, hdu] at h
  | ok df =>
    by_cases hlt : df.LayersSize < c.threshold
    · simp [collectImages, hdu, hlt] at h
    · exact ⟨df, s1, rfl, hlt, by rw [collectImages_ok matcher c now s s1 df hdu hlt]⟩

/-- A pass whose `DiskUsage` call succeeded either returned early or ran the
loop from the snapshot's `LayersSize`. -/
theorem collectImages_run {σ : Type} (matcher : List String → List String → Bool)
    (c : collector σ) (now : Int) (s : σ) (df : DiskUsage)
    (h : (collectImages matcher c now s).snapshot = Except.ok df) :
    ∃ s1, c.client.DiskUsage s = (Except.ok df, s1) ∧
      ((df.LayersSize < c.threshold ∧ (collectImages matcher c now s).iterations = [] ∧
          (collectImages matcher c now s).result = none) ∨
        (¬ df.LayersSize < c.threshold ∧
          (collectImages matcher c now s).iterations =
            (imagesLoop matcher c df now df.Images ⟨df.LayersSize, none, s1⟩).2 ∧
          (collectImages matcher c now s).result =
            (imagesLoop matcher c df now df.Images ⟨df.LayersSize, none, s1⟩).1.result)) := by
  rcases hdu : c.client.DiskUsage s with ⟨r, s1⟩
  cases r with
  | error err => simp [collectImages, hdu] at h
  | ok df1 =>
    by_cases hlt : df1.LayersSize < c.threshold
    · simp [collectImages, hdu, hlt] at h
      subst h
      exact ⟨s1, rfl, Or.inl ⟨hlt, by simp [collectImages, hdu, hlt]⟩⟩
    · rw [collectImages_ok matcher c now s s1 df1 hdu hlt] at h ⊢
      simp at h
      subst h
      exact ⟨s1, rfl, Or.inr ⟨hlt, rfl, rfl⟩⟩

theorem collectImages_mem {σ : Type} (matcher : List String → List String → Bool)
    (c : collector σ) (now : Int) (s : σ) (it : Iteration)
    (h : it ∈ (collectImages matcher c now s).iterations) :
    ∃ df s1 image st, c.client.DiskUsage s = (Except.ok df, s1) ∧
      ¬ df.LayersSize < c.threshold ∧ image ∈ df.Images ∧
      it = (loopBody matcher c df now image st).2.2 := by
  have hne : (collectImages matcher c now s).iterations ≠ [] := by
    intro h0; rw [h0] at h; simp at h
  obtain ⟨df, s1, hdu, hge, heq⟩ := collectImages_iterations matcher c now s hne
  rw [heq] at h
  obtain ⟨image, st, himg, hit⟩ := imagesLoop_mem matcher c df now df.Images _ it h
  exact ⟨df, s1, image, st, hdu, hge, himg, hit⟩

/-! ## Lemmas on how a pass goes on -/

/-- Unless an iteration removed its image and brought the size below the
threshold, the next image is put through the loop body with the running size
that iteration left. -/
theorem collectImages_next {σ : Type} (matcher : List String → List String → Bool)
    (c : collector σ) (now : Int) (s : σ) (df : DiskUsage) (i : Nat) (it : Iteration)
    (hdf : (collectImages matcher c now s).snapshot = Except.ok df)
    (hit : (collectImages matcher c now s).iterations[i]? = some it)
    (hnot : ¬ (it.removed = true ∧ it.sizeAfter < c.threshold)) :
    ∀ image, df.Images[i + 1]? = some image →
      ∃ st : LoopState σ, st.size = it.sizeAfter ∧
        (collectImages matcher c now s).iterations[i + 1]? =
          some (loopBody matcher c df now image st).2.2 := by
  obtain ⟨s1, -, h1 | ⟨-, hits, -⟩⟩ := collectImages_run matcher c now s df hdf
  · rw [h1.2.1] at hit; simp at hit
  rw [hits] at hit ⊢
  intro image himage
  have hlen : i + 1 < df.Images.length := by
    rcases Nat.lt_or_ge (i + 1) df.Images.length with h | h
    · exact h
    · rw [List.getElem?_eq_none h] at himage; cases himage
  have hnext := imagesLoop_continue matcher c df now df.Images _ i it hit hnot hlen
  obtain ⟨image2, st2, himg2, hbody2⟩ :=
    imagesLoop_body matcher c df now df.Images _ (i + 1) _ (List.getElem?_eq_getElem hnext)
  rw [himage] at himg2
  simp at himg2
  subst himg2
  refine ⟨st2, ?_, ?_⟩
  · rw [← (loopBody_image matcher c df now image st2).2, ← hbody2,
      (imagesLoop_chain matcher c df now df.Images _).2 i it _ hit
        (List.getElem?_eq_getElem hnext)]
  · rw [List.getElem?_eq_getElem hnext, hbody2]

/-- A pass that does not return early puts the first image through the loop
body with the running size `LayersSize`. -/
theorem collectImages_first {σ : Type} (matcher : List String → List String → Bool)
    (c : collector σ) (now : Int) (s : σ) (df : DiskUsage)
    (hdf : (collectImages matcher c now s).snapshot = Except.ok df)
    (hge : ¬ df.LayersSize < c.threshold) :
    ∀ image, df.Images[0]? = some image →
      ∃ st : LoopState σ, st.size = df.LayersSize ∧
        (collectImages matcher c now s).iterations[0]? =
          some (loopBody matcher c df now image st).2.2 := by
  obtain ⟨s1, -, h1 | ⟨-, hits, -⟩⟩ := collectImages_run matcher c now s df hdf
  · exact absurd h1.1 hge
  rw [hits]
  intro image himage
  cases himages : df.Images with
  | nil => rw [himages] at himage; simp at himage
  | cons image1 rest =>
    rw [himages] at himage
    simp at himage
    subst himage
    refine ⟨⟨df.LayersSize, none, s1⟩, rfl, ?_⟩
    rcases flow_cases (loopBody matcher c df now image1 ⟨df.LayersSize, none, s1⟩).1 with
      hf | hf
    · rw [imagesLoop_cons_stop matcher c df now image1 rest _ hf]; simp
    · rw [imagesLoop_cons_next matcher c df now image1 rest _ hf]; simp

/-- An iteration of a pass with a failing call is not a removal and leaves the
running size as it was. -/
theorem collectImages_failed_iteration {σ : Type}
    (matcher : List String → List String → Bool) (c : collector σ) (now : Int) (s : σ)
    (it : Iteration) (ev : Event)
    (hit : it ∈ (collectImages matcher c now s).iterations)
    (hev : ev ∈ it.events) (hfail : ev.failed = true) :
    it.removed = false ∧ it.sizeAfter = it.sizeBefore := by
  obtain ⟨df, s1, image, st, -, -, -, rfl⟩ := collectImages_mem matcher c now s it hit
  have hrem : (loopBody matcher c df now image st).2.2.removed = false := by
    cases hr : (loopBody matcher c df now image st).2.2.removed with
    | false => rfl
    | true =>
      have := loopBody_removed_events matcher c df now image st hr ev hev
      rw [hfail] at this
      cases this
  exact ⟨hrem, by
    rw [(loopBody_summary matcher c df now image st).2.2.2.1 hrem,
      (loopBody_image matcher c df now image st).2]⟩

/-- A failing call of the loop of `removeImage` is its last call: the calls
before it succeeded, one per attribute, and its error is returned. -/
theorem removeLoop_first_failure {σ : Type} (c : collector σ) (attrs : List String) :
    ∀ (s : σ) (k : Nat) (ev : Event),
      (removeLoop c attrs none s).2.2[k]? = some ev → ev.failed = true →
      ∃ a e, attrs[k]? = some a ∧ ev = Event.remove a c.imageRemoveOptions (some e) ∧
        (removeLoop c attrs none s).1 = some e ∧
        (removeLoop c attrs none s).2.2 =
          (attrs.take k).map (fun a1 => Event.remove a1 c.imageRemoveOptions none) ++ [ev] := by
  induction attrs with
  | nil => intro s k ev h; simp [removeLoop] at h
  | cons a rest ih =>
    intro s k ev h hfail
    rcases h1 : c.client.ImageRemove s a c.imageRemoveOptions with ⟨r, s1⟩
    cases r with
    | some e =>
      simp only [removeLoop, h1] at h ⊢
      cases k with
      | zero =>
        simp at h
        exact ⟨a, e, by simp, h.symm, rfl, by simp [h]⟩
      | succ j => simp at h
    | none =>
      rcases h2 : removeLoop c rest none s1 with ⟨e2, s2, evs⟩
      simp only [removeLoop, h1, h2] at h ⊢
      cases k with
      | zero =>
        simp at h
        rw [← h] at hfail
        simp [Event.failed] at hfail
      | succ j =>
        simp at h
        have h3 := ih s1 j ev
        rw [h2] at h3
        obtain ⟨a1, e, ha1, hev, hres, hevs⟩ := h3 h hfail
        have hevs1 : evs = (rest.take j).map
            (fun a1 => Event.remove a1 c.imageRemoveOptions none) ++ [ev] := hevs
        refine ⟨a1, e, by simpa using ha1, hev, hres, ?_⟩
        rw [hevs1]
        simp

/-- Under the size bounds, a successful removal does not raise the running
size. -/
theorem sizeAfterRemoval_le {σ : Type} (c : collector σ) (size : Int) (image : ImageSummary)
    (h0 : 0 ≤ size) (h1 : size < 9223372036854775808) (h2 : 0 ≤ image.Size)
    (h3 : 0 ≤ image.SharedSize)
    (h4 : image.Size + image.SharedSize < 9223372036854775808) :
    sizeAfterRemoval c size image ≤ size := by
  unfold sizeAfterRemoval sub64 wrap64
  split <;> omega

/-- Under the size bounds, every iteration of the loop starts at or above the
threshold and at or below the size the loop started with, and does not raise
the running size. -/
theorem imagesLoop_monotone {σ : Type} (matcher : List String → List String → Bool)
    (c : collector σ) (df : DiskUsage) (now : Int) (hthr : 0 ≤ c.threshold)
    (images : List ImageSummary) :
    (∀ image ∈ images, 0 ≤ image.Size ∧ 0 ≤ image.SharedSize ∧
      image.Size + image.SharedSize < 9223372036854775808) →
    ∀ st : LoopState σ, c.threshold ≤ st.size → st.size < 9223372036854775808 →
      ∀ it ∈ (imagesLoop matcher c df now images st).2,
        c.threshold ≤ it.sizeBefore ∧ it.sizeBefore ≤ st.size ∧
          it.sizeAfter ≤ it.sizeBefore := by
  induction images with
  | nil => intro _ st _ _ it h; simp [imagesLoop] at h
  | cons image rest ih =>
    intro hsizes st hge hlt it hit
    obtain ⟨hs1, hs2, hs3⟩ := hsizes image (List.mem_cons_self _ _)
    have hbefore := (loopBody_image matcher c df now image st).2
    have hsum := loopBody_summary matcher c df now image st
    have hafter : (loopBody matcher c df now image st).2.2.sizeAfter ≤ st.size := by
      cases hr : (loopBody matcher c df now image st).2.2.removed with
      | false => rw [hsum.2.2.2.1 hr]
      | true =>
        rw [hsum.2.2.2.2 hr]
        exact sizeAfterRemoval_le c st.size image (le_trans hthr hge) hlt hs1 hs2 hs3
    have hhead : c.threshold ≤ (loopBody matcher c df now image st).2.2.sizeBefore ∧
        (loopBody matcher c df now image st).2.2.sizeBefore ≤ st.size ∧
        (loopBody matcher c df now image st).2.2.sizeAfter ≤
          (loopBody matcher c df now image st).2.2.sizeBefore := by
      rw [hbefore]
      exact ⟨hge, le_refl _, hafter⟩
    rcases flow_cases (loopBody matcher c df now image st).1 with hf | hf
    · rw [imagesLoop_cons_stop matcher c df now image rest st hf] at hit
      simp at hit
      rw [hit]
      exact hhead
    · rw [imagesLoop_cons_next matcher c df now image rest st hf] at hit
      rcases List.mem_cons.1 hit with hit | hit
      · rw [hit]
        exact hhead
      · have hnstop : ¬ ((loopBody matcher c df now image st).2.2.removed = true ∧
            (loopBody matcher c df now image st).2.2.sizeAfter < c.threshold) := by
          intro h
          have := hsum.2.1.2 h
          rw [hf] at this
          cases this
        have hge1 : c.threshold ≤ (loopBody matcher c df now image st).2.1.size := by
          rw [hsum.1]
          cases hr : (loopBody matcher c df now image st).2.2.removed with
          | false => rw [hsum.2.2.2.1 hr]; exact hge
          | true => exact not_lt.1 (fun h => hnstop ⟨hr, h⟩)
        have hle1 : (loopBody matcher c df now image st).2.1.size ≤ st.size := by
          rw [hsum.1]; exact hafter
        obtain ⟨h1, h2, h3⟩ := ih (fun im him => hsizes im (List.mem_cons_of_mem _ him))
          _ hge1 (lt_of_le_of_lt hle1 hlt) it hit
        exact ⟨h1, le_trans h2 hle1, h3⟩

/-! ## Lemmas on the aggregated error -/

theorem multierrorAppend_eq (result : Option GoError) (err : GoError) :
    multierrorAppend result err = GoError.multi (errorsOf result ++ flattenError err) := by
  cases result with
  | none => rfl
  | some e => cases e <;> rfl

theorem flatMap_flattenError_plain (errors : List GoError)
    (h : ∀ e ∈ errors, ∃ msg, e = GoError.plain msg) :
    errors.flatMap flattenError = errors := by
  induction errors with
  | nil => rfl
  | cons e rest ih =>
    obtain ⟨msg, rfl⟩ := h _ (List.mem_cons_self _ _)
    simp only [List.flatMap_cons, flattenError, List.singleton_append]
    rw [ih (fun e1 h1 => h e1 (List.mem_cons_of_mem _ h1))]

/-- The errors in the calls of the loop of `removeImage` are the error it
returns. -/
theorem removeLoop_failures {σ : Type} (c : collector σ) (attrs : List String) :
    ∀ s : σ, (removeLoop c attrs none s).2.2.filterMap Event.error? =
      (removeLoop c attrs none s).1.toList := by
  induction attrs with
  | nil => intro s; simp [removeLoop]
  | cons a rest ih =>
    intro s
    rcases h1 : c.client.ImageRemove s a c.imageRemoveOptions with ⟨r, s1⟩
    cases r with
    | some e => simp [removeLoop, h1, Event.error?]
    | none =>
      rcases h2 : removeLoop c rest none s1 with ⟨e2, s2, evs⟩
      have h3 := ih s1
      rw [h2] at h3
      simp [removeLoop, h1, h2, Event.error?]
      simpa using h3

/-- One run of the loop body either meets no error and keeps the aggregate, or
meets one error and appends it. -/
theorem loopBody_failures {σ : Type} (matcher : List String → List String → Bool)
    (c : collector σ) (df : DiskUsage) (now : Int) (image : ImageSummary)
    (st : LoopState σ) :
    ((loopBody matcher c df now image st).2.2.events.filterMap Event.error? = [] ∧
      (loopBody matcher c df now image st).2.1.result = st.result) ∨
    (∃ err, (loopBody matcher c df now image st).2.2.events.filterMap Event.error? = [err] ∧
      (loopBody matcher c df now image st).2.1.result =
        some (multierrorAppend st.result err)) := by
  rcases loopBody_cases matcher c df now image st with
    ⟨-, h⟩ | ⟨err, s2, -, -, -, h⟩ | ⟨info1, s2, -, -, -, hm, h⟩ |
    ⟨info1, s2, s3, err, events, -, -, -, hm, hr, h⟩ |
    ⟨info1, s2, s3, events, -, -, -, hm, hr, h⟩
  · rw [h]; exact Or.inl ⟨rfl, rfl⟩
  · rw [h]; exact Or.inr ⟨err, rfl, rfl⟩
  · rw [h]; exact Or.inl ⟨rfl, rfl⟩
  · rw [h]
    have h1 := removeLoop_failures c (removalAttributes info1) s2
    unfold removeImage at hr
    rw [hr] at h1
    refine Or.inr ⟨err, ?_, rfl⟩
    simpa [Event.error?] using h1
  · rw [h]
    have h1 := removeLoop_failures c (removalAttributes info1) s2
    unfold removeImage at hr
    rw [hr] at h1
    refine Or.inl ⟨?_, rfl⟩
    simpa [Event.error?] using h1

/-- The aggregate after the loop: unchanged when no call failed, otherwise the
entries it had followed by the flattened errors of the failed calls. -/
theorem imagesLoop_failures {σ : Type} (matcher : List String → List String → Bool)
    (c : collector σ) (df : DiskUsage) (now : Int) (images : List ImageSummary) :
    ∀ st : LoopState σ,
      (((imagesLoop matcher c df now images st).2.flatMap Iteration.events).filterMap
          Event.error? = [] ∧
        (imagesLoop matcher c df now images st).1.result = st.result) ∨
      (((imagesLoop matcher c df now images st).2.flatMap Iteration.events).filterMap
          Event.error? ≠ [] ∧
        (imagesLoop matcher c df now images st).1.result =
          some (GoError.multi (errorsOf st.result ++
            (((imagesLoop matcher c df now images st).2.flatMap Iteration.events).filterMap
              Event.error?).flatMap flattenError))) := by
  induction images with
  | nil => intro st; simp [imagesLoop]
  | cons image rest ih =>
    intro st
    rcases flow_cases (loopBody matcher c df now image st).1 with hf | hf
    · rw [imagesLoop_cons_stop matcher c df now image rest st hf]
      rcases loopBody_failures matcher c df now image st with ⟨h1, h2⟩ | ⟨err, h1, h2⟩
      · exact Or.inl ⟨by simpa using h1, h2⟩
      · refine Or.inr ⟨by simp [h1], ?_⟩
        simp [h1, h2, multierrorAppend_eq]
    · rw [imagesLoop_cons_next matcher c df now image rest st hf]
      simp only [List.flatMap_cons, List.filterMap_append]
      rcases loopBody_failures matcher c df now image st with ⟨h1, h2⟩ | ⟨err, h1, h2⟩
      · rw [h1]
        rcases ih (loopBody matcher c df now image st).2.1 with ⟨h3, h4⟩ | ⟨h3, h4⟩
        · exact Or.inl ⟨by simpa using h3, by rw [h4, h2]⟩
        · exact Or.inr ⟨by simpa using h3, by rw [h4, h2]; rfl⟩
      · rw [h1]
        rcases ih (loopBody matcher c df now image st).2.1 with ⟨h3, h4⟩ | ⟨h3, h4⟩
        · refine Or.inr ⟨by simp, ?_⟩
          rw [h4, h2, h3, multierrorAppend_eq]
          simp
        · refine Or.inr ⟨by simp, ?_⟩
          rw [h4, h2, multierrorAppend_eq]
          simp [errorsOf, flattenError]

/-- The same for a whole pass, whose aggregate starts as nil. -/
theorem collectImages_failures {σ : Type} (matcher : List String → List String → Bool)
    (c : collector σ) (now : Int) (s : σ) (df : DiskUsage)
    (hdf : (collectImages matcher c now s).snapshot = Except.ok df) :
    ((collectImages matcher c now s).failures = [] ∧
      (collectImages matcher c now s).result = none) ∨
    ((collectImages matcher c now s).failures ≠ [] ∧
      (collectImages matcher c now s).result =
        some (GoError.multi ((collectImages matcher c now s).failures.flatMap flattenError))) := by
  obtain ⟨s1, -, h1 | ⟨-, hits, hres⟩⟩ := collectImages_run matcher c now s df hdf
  · exact Or.inl ⟨by simp [Pass.failures, Pass.events, h1.2.1], h1.2.2⟩
  · rw [Pass.failures, Pass.events, hits, hres]
    simpa [errorsOf] using
      imagesLoop_failures matcher c df now df.Images ⟨df.LayersSize, none, s1⟩

/-! ## Lemmas on the options -/

/-- A field that one option of a list sets to `v` and that every other option
of the list sets to `v` or keeps, holds `v` after the whole list. -/
theorem foldl_options_field {σ α : Type} (f : collector σ → α) (v : α)
    (opts : List (CollectorOption σ))
    (hall : ∀ o ∈ opts, (∀ c, f (o c) = v) ∨ (∀ c, f (o c) = f c)) :
    ∀ c : collector σ, ((∃ o ∈ opts, ∀ c1, f (o c1) = v) ∨ f c = v) →
      f (opts.foldl (fun c1 o => o c1) c) = v := by
  induction opts with
  | nil =>
    intro c h
    rcases h with ⟨o, ho, -⟩ | h
    · simp at ho
    · simpa using h
  | cons o rest ih =>
    intro c h
    simp only [List.foldl_cons]
    apply ih (fun o1 ho1 => hall o1 (List.mem_cons_of_mem _ ho1))
    rcases hall o (List.mem_cons_self _ _) with hset | hkeep
    · exact Or.inr (hset c)
    · rcases h with ⟨o1, ho1, hset1⟩ | h
      · rcases List.mem_cons.1 ho1 with heq | hmem
        · subst heq
          exact Or.inr (hset1 c)
        · exact Or.inl ⟨o1, hmem, hset1⟩
      · exact Or.inr (by rw [hkeep c, h])

/-! ## Lemmas on the calls of a pass -/

theorem removalAttributes_cons (info : ImageInspect) :
    ∃ a rest, removalAttributes info = a :: rest := by
  unfold removalAttributes
  cases h1 : info.RepoTags with
  | cons a l => exact ⟨a, l, by simp⟩
  | nil =>
    cases h2 : info.RepoDigests with
    | cons a l => exact ⟨a, l, by simp⟩
    | nil => exact ⟨info.ID, [], by simp⟩

theorem removalAttributes_mem (info : ImageInspect) (ref : String)
    (h : ref ∈ removalAttributes info) :
    ref ∈ info.RepoTags ∨ ref ∈ info.RepoDigests ∨ ref = info.ID := by
  rw [removalAttributes_eq] at h
  by_cases h1 : info.RepoTags ≠ []
  · rw [if_pos h1] at h
    exact Or.inl h
  · rw [if_neg h1] at h
    by_cases h2 : info.RepoDigests ≠ []
    · rw [if_pos h2] at h
      exact Or.inr (Or.inl h)
    · rw [if_neg h2] at h
      exact Or.inr (Or.inr (List.mem_singleton.1 h))

/-- The loop of `removeImage` starts with the call for the first attribute. -/
theorem removeLoop_head {σ : Type} (c : collector σ) (a : String) (rest : List String)
    (s : σ) :
    ∃ answer, (removeLoop c (a :: rest) none s).2.2.head? =
      some (Event.remove a c.imageRemoveOptions answer) := by
  rcases h1 : c.client.ImageRemove s a c.imageRemoveOptions with ⟨r, s1⟩
  cases r with
  | some e => exact ⟨some e, by simp [removeLoop, h1]⟩
  | none =>
    rcases h2 : removeLoop c rest none s1 with ⟨e2, s2, evs⟩
    exact ⟨none, by simp [removeLoop, h1, h2]⟩

/-- The loop of `removeImage` makes at most one call per attribute. -/
theorem removeLoop_length {σ : Type} (c : collector σ) (attrs : List String) :
    ∀ (err : Option GoError) (s : σ), (removeLoop c attrs err s).2.2.length ≤ attrs.length := by
  induction attrs with
  | nil => intro err s; simp [removeLoop]
  | cons a rest ih =>
    intro err s
    rcases h1 : c.client.ImageRemove s a c.imageRemoveOptions with ⟨r, s1⟩
    cases r with
    | some e => simp [removeLoop, h1]
    | none =>
      rcases h2 : removeLoop c rest none s1 with ⟨e2, s2, evs⟩
      have h3 := ih none s1
      rw [h2] at h3
      simp [removeLoop, h1, h2]
      exact h3

/-- A list of `ImageRemove` calls holds no inspect call. -/
theorem countP_of_removes (events : List Event)
    (h : ∀ ev ∈ events, ev.isRemove = true) :
    events.countP Event.isRemove = events.length ∧ events.countP Event.isInspect = 0 ∧
      events.filterMap Event.inspected? = [] := by
  induction events with
  | nil => simp
  | cons ev rest ih =>
    have h1 := h ev (List.mem_cons_self _ _)
    obtain ⟨h2, h3, h4⟩ := ih (fun e he => h e (List.mem_cons_of_mem _ he))
    cases ev with
    | inspect imageID answer => simp [Event.isRemove] at h1
    | remove imageID options answer =>
      simp [Event.isRemove, Event.isInspect, Event.inspected?, h2, h3, h4]

theorem removeImage_isRemove {σ : Type} (c : collector σ) (info : ImageInspect) (s : σ) :
    ∀ ev ∈ (removeImage c info s).2.2, ev.isRemove = true := by
  intro ev hev
  obtain ⟨a, answer, -, rfl⟩ := removeLoop_events c _ none s ev hev
  rfl

/-- When no iteration removes its image and brings the running size below the
threshold, the loop runs through all images. -/
theorem imagesLoop_full {σ : Type} (matcher : List String → List String → Bool)
    (c : collector σ) (df : DiskUsage) (now : Int) (images : List ImageSummary) :
    ∀ st : LoopState σ,
      (∀ it ∈ (imagesLoop matcher c df now images st).2,
        ¬ (it.removed = true ∧ it.sizeAfter < c.threshold)) →
      (imagesLoop matcher c df now images st).2.length = images.length := by
  induction images with
  | nil => intro st _; simp [imagesLoop]
  | cons image rest ih =>
    intro st h
    rcases flow_cases (loopBody matcher c df now image st).1 with hf | hf
    · rw [imagesLoop_cons_stop matcher c df now image rest st hf] at h
      have hs := (loopBody_summary matcher c df now image st).2.1
      exact absurd (hs.1 hf) (h _ (List.mem_singleton.2 rfl))
    · rw [imagesLoop_cons_next matcher c df now image rest st hf] at h ⊢
      simp only [List.length_cons]
      rw [ih _ (fun it hit => h it (List.mem_cons_of_mem _ hit))]

/-- A log made of a successful inspect call followed by the calls of
`removeImage` on its answer keeps the call discipline. -/
theorem callDiscipline_inspect_remove {σ : Type} (c : collector σ) (image : ImageSummary)
    (info : ImageInspect) (s : σ) :
    CallDiscipline c image
      (Event.inspect image.ID (Except.ok info) :: (removeImage c info s).2.2) := by
  obtain ⟨h1, h2, h3⟩ := countP_of_removes _ (removeImage_isRemove c info s)
  refine ⟨?_, ?_, ?_, ?_⟩
  · simp [List.countP_cons, Event.isInspect, h2]
  · intro imageID answer h
    rcases List.mem_cons.1 h with h | h
    · injection h with hid hanswer
      subst hid hanswer
      exact ⟨rfl, rfl⟩
    · exact absurd h (removeImage_not_inspect c info s _ _)
  · intro ref options answer h
    rcases List.mem_cons.1 h with h | h
    · cases h
    · obtain ⟨a, answer1, ha, heq⟩ := removeLoop_events c _ none s _ h
      injection heq with hr ho _
      subst hr ho
      exact ⟨rfl, info, rfl, ha⟩
  · have hlen := removeLoop_length c (removalAttributes info) none s
    unfold removeImage at h1 h3 ⊢
    simp only [List.countP_cons, Event.isRemove, removalBudget, List.filterMap_cons,
      Event.inspected?, h1, h3, List.map_cons, List.map_nil, List.sum_cons, List.sum_nil]
    simp only [Bool.false_eq_true, if_false]
    omega

/-- Every run of the loop body keeps the call discipline. -/
theorem loopBody_callDiscipline {σ : Type} (matcher : List String → List String → Bool)
    (c : collector σ) (df : DiskUsage) (now : Int) (image : ImageSummary)
    (st : LoopState σ) :
    CallDiscipline c image (loopBody matcher c df now image st).2.2.events := by
  rcases loopBody_cases matcher c df now image st with
    ⟨-, h⟩ | ⟨err, s2, -, -, -, h⟩ | ⟨info1, s2, -, -, -, hm, h⟩ |
    ⟨info1, s2, s3, err, events, -, -, -, hm, hr, h⟩ |
    ⟨info1, s2, s3, events, -, -, -, hm, hr, h⟩
  · rw [h]; simp [CallDiscipline, removalBudget]
  · rw [h]
    simp [CallDiscipline, removalBudget, Event.isInspect, Event.isRemove, Event.inspected?]
  · rw [h]
    simp [CallDiscipline, removalBudget, Event.isInspect, Event.isRemove, Event.inspected?]
  · rw [h]
    have hev : events = (removeImage c info1 s2).2.2 := by rw [hr]
    rw [hev]
    exact callDiscipline_inspect_remove c image info1 s2
  · rw [h]
    have hev : events = (removeImage c info1 s2).2.2 := by rw [hr]
    rw [hev]
    exact callDiscipline_inspect_remove c image info1 s2

/-- Iterations with at most one inspect call each hold at most as many
inspect calls as there are iterations. -/
theorem countP_inspect_flatMap (its : List Iteration)
    (h : ∀ it ∈ its, it.events.countP Event.isInspect ≤ 1) :
    (its.flatMap Iteration.events).countP Event.isInspect ≤ its.length := by
  induction its with
  | nil => simp
  | cons it rest ih =>
    have h1 := h it (List.mem_cons_self _ _)
    have h2 := ih (fun it1 hit1 => h it1 (List.mem_cons_of_mem _ hit1))
    simp only [List.flatMap_cons, List.countP_append, List.length_cons]
    omega

/-- Iterations that each stay within their budget stay within the budget of
the whole log. -/
theorem countP_remove_flatMap (its : List Iteration)
    (h : ∀ it ∈ its, it.events.countP Event.isRemove ≤ removalBudget it.events) :
    (its.flatMap Iteration.events).countP Event.isRemove ≤
      removalBudget (its.flatMap Iteration.events) := by
  induction its with
  | nil => simp [removalBudget]
  | cons it rest ih =>
    have h1 := h it (List.mem_cons_self _ _)
    have h2 := ih (fun it1 hit1 => h it1 (List.mem_cons_of_mem _ hit1))
    unfold removalBudget at h1 h2 ⊢
    simp only [List.flatMap_cons, List.countP_append, List.filterMap_append, List.map_append,
      List.sum_append]
    omega

/-! ## Theorems -/

/-- C1: when `DiskUsage` succeeds with a snapshot whose `LayersSize` is below
the threshold, `collectImages` returns nil and the loop does not run: the pass
makes no `ImageInspectWithRaw` and no `ImageRemove` call, whatever images and
containers the snapshot lists. -/
theorem collectImages_below_threshold {σ : Type}
    (matcher : List String → List String → Bool) (c : collector σ) (now : Int) (s s1 : σ)
    (df : DiskUsage) (hdf : c.client.DiskUsage s = (Except.ok df, s1))
    (hlt : df.LayersSize < c.threshold) :
    (collectImages matcher c now s).result = none ∧
      (collectImages matcher c now s).iterations = [] ∧
      (collectImages matcher c now s).events = [] := by
  simp [collectImages, Pass.events, hdf, hlt]

/-- Witness of C1: threshold 2 and a snapshot of 1 byte, as in
`TestCollectImages_BelowThreshold`. -/
theorem collectImages_below_threshold_witness :
    (collectImages matchPatterns belowThresholdCollector 0 0).result = none ∧
      (collectImages matchPatterns belowThresholdCollector 0 0).iterations = [] ∧
      (collectImages matchPatterns belowThresholdCollector 0 0).events = [] :=
  collectImages_below_threshold matchPatterns belowThresholdCollector 0 0 1
    belowThresholdUsage rfl (by decide)

/-- Counterexample to C2 as stated: the inspected digest of the image matches a
reserved pattern, yet the pass removes the image by that digest. -/
theorem reserved_digest_is_removed :
    matchPatterns reservedDigestInfo.RepoDigests reservedDigestCollector.reserved = true ∧
      (collectImages matchPatterns reservedDigestCollector testNow 0).events =
        [Event.inspect "a180b24e38ed" (Except.ok reservedDigestInfo),
          Event.remove "drone/drone@sha256:9a839e63dad5" ⟨false, false⟩ none] := by
  decide

/-- C2, amended: an image whose inspected `RepoTags` match the reserved list is
never removed.  In the iteration of such an image the only client call is the
inspect call: no `ImageRemove` call is made, the image does not count as
removed and the running size stays as it was, whatever the threshold. -/
theorem reserved_tags_never_removed {σ : Type}
    (matcher : List String → List String → Bool) (c : collector σ) (now : Int) (s : σ)
    (it : Iteration) (info : ImageInspect)
    (hit : it ∈ (collectImages matcher c now s).iterations)
    (hinfo : Event.inspect it.image.ID (Except.ok info) ∈ it.events)
    (hres : matcher info.RepoTags c.reserved = true) :
    it.events = [Event.inspect it.image.ID (Except.ok info)] ∧
      (∀ imageID options answer, Event.remove imageID options answer ∉ it.events) ∧
      it.removed = false ∧ it.sizeAfter = it.sizeBefore := by
  obtain ⟨df, s1, image, st, -, -, -, rfl⟩ := collectImages_mem matcher c now s it hit
  have key : (loopBody matcher c df now image st).2.2.events =
        [Event.inspect (loopBody matcher c df now image st).2.2.image.ID (Except.ok info)] ∧
      (loopBody matcher c df now image st).2.2.removed = false ∧
      (loopBody matcher c df now image st).2.2.sizeAfter =
        (loopBody matcher c df now image st).2.2.sizeBefore := by
    rcases loopBody_cases matcher c df now image st with
      ⟨-, h⟩ | ⟨err, s2, -, -, -, h⟩ | ⟨info1, s2, -, -, -, hm, h⟩ |
      ⟨info1, s2, s3, err, events, -, -, -, hm, hr, h⟩ |
      ⟨info1, s2, s3, events, -, -, -, hm, hr, h⟩
    · rw [h] at hinfo; simp at hinfo
    · rw [h] at hinfo; simp at hinfo
    · rw [h] at hinfo ⊢
      simp at hinfo
      simp [hinfo]
    · rw [h] at hinfo
      simp at hinfo
      rcases hinfo with hinfo | hinfo
      · rw [hinfo, hm] at hres; cases hres
      · have hmem : Event.inspect image.ID (Except.ok info) ∈ (removeImage c info1 s2).2.2 := by
          rw [hr]; exact hinfo
        exact absurd hmem (removeImage_not_inspect c info1 s2 _ _)
    · rw [h] at hinfo
      simp at hinfo
      rcases hinfo with hinfo | hinfo
      · rw [hinfo, hm] at hres; cases hres
      · have hmem : Event.inspect image.ID (Except.ok info) ∈ (removeImage c info1 s2).2.2 := by
          rw [hr]; exact hinfo
        exact absurd hmem (removeImage_not_inspect c info1 s2 _ _)
  refine ⟨key.1, ?_, key.2.1, key.2.2⟩
  intro imageID options answer hmem
  rw [key.1] at hmem
  simp at hmem

/-- Witness of C2 amended: the pass of `TestCollectImages_SkipWhitelist`. -/
theorem reserved_tags_never_removed_witness :
    whitelistIteration.events =
        [Event.inspect whitelistIteration.image.ID (Except.ok whitelistInfo)] ∧
      (∀ imageID options answer,
        Event.remove imageID options answer ∉ whitelistIteration.events) ∧
      whitelistIteration.removed = false ∧
      whitelistIteration.sizeAfter = whitelistIteration.sizeBefore :=
  reserved_tags_never_removed matchPatterns whitelistCollector testNow 0 whitelistIteration
    whitelistInfo (by decide) (by decide) (by decide)

/-- C3: an image whose `ID` or `ParentID` equals the `ImageID` of a container
of the same snapshot is never removed: the iteration of such an image makes no
client call at all, neither `ImageInspectWithRaw` nor `ImageRemove`, and leaves
the running size as it was. -/
theorem used_image_untouched {σ : Type}
    (matcher : List String → List String → Bool) (c : collector σ) (now : Int) (s : σ)
    (df : DiskUsage) (it : Iteration)
    (hdf : (collectImages matcher c now s).snapshot = Except.ok df)
    (hit : it ∈ (collectImages matcher c now s).iterations)
    (hused : ∃ container ∈ df.Containers,
      container.ImageID = it.image.ID ∨ container.ImageID = it.image.ParentID) :
    it.events = [] ∧ it.removed = false ∧ it.sizeAfter = it.sizeBefore := by
  obtain ⟨df1, s1, image, st, hdu, -, -, rfl⟩ := collectImages_mem matcher c now s it hit
  obtain ⟨s2, hdu2, -⟩ := collectImages_run matcher c now s df hdf
  rw [hdu] at hdu2
  simp at hdu2
  obtain ⟨rfl, -⟩ := hdu2
  rw [(loopBody_image matcher c df1 now image st).1] at hused
  have hu := (isImageUsed_eq_true_iff image df1.Containers).2 hused
  rw [loopBody_used matcher c df1 now image st hu]
  exact ⟨rfl, rfl, rfl⟩

/-- Witness of C3: the first image of `TestCollectImages_Skip`, which a
container uses. -/
theorem used_image_untouched_witness :
    skipFirstIteration.events = [] ∧ skipFirstIteration.removed = false ∧
      skipFirstIteration.sizeAfter = skipFirstIteration.sizeBefore :=
  used_image_untouched matchPatterns skipCollector testNow 0 skipUsage skipFirstIteration
    (by decide) (by decide) ⟨⟨"a180b24e38ed"⟩, by decide, Or.inl rfl⟩

/-- Counterexample to C4 as stated: an image whose `Created` is the largest
`int64` has `created + minImageAge` far after `now`, yet `time.Unix` wraps
around to a time long past and the pass inspects and removes the image. -/
theorem far_future_image_is_removed :
    testNow < farFutureImage.Created * 1000000000 + farFutureCollector.minImageAge ∧
      (collectImages matchPatterns farFutureCollector testNow 0).events =
        [Event.inspect "a180b24e38ed" (Except.ok ⟨"a180b24e38ed", [], []⟩),
          Event.remove "a180b24e38ed" ⟨false, false⟩ none] := by
  decide

/-- C4, amended: an image for which `created + minImageAge` is strictly after
`now` is never removed, its iteration makes no client call, provided the time
arithmetic does not overflow: `Created + 62135596800`, the second count that
`time.Unix` stores, and that count plus the whole seconds of `minImageAge`
are below 2^63.  Conversely the age guard does not skip an image with
`created + minImageAge` at or before `now`: unless a container uses it, its
iteration starts with the inspect call. -/
theorem age_guard {σ : Type}
    (matcher : List String → List String → Bool) (c : collector σ) (now : Int) (s : σ)
    (df : DiskUsage) (it : Iteration)
    (hdf : (collectImages matcher c now s).snapshot = Except.ok df)
    (hit : it ∈ (collectImages matcher c now s).iterations) :
    (it.image.Created + 62135596800 < 9223372036854775808 →
      it.image.Created + 62135596800 + c.minImageAge / 1000000000 < 9223372036854775808 →
      now < it.image.Created * 1000000000 + c.minImageAge →
      it.events = [] ∧ it.removed = false ∧ it.sizeAfter = it.sizeBefore) ∧
    (it.image.Created * 1000000000 + c.minImageAge ≤ now →
      isImageUsed it.image df.Containers = false →
      ∃ answer, it.events.head? = some (Event.inspect it.image.ID answer)) := by
  obtain ⟨df1, s1, image, st, hdu, -, -, rfl⟩ := collectImages_mem matcher c now s it hit
  obtain ⟨s2, hdu2, -⟩ := collectImages_run matcher c now s df hdf
  rw [hdu] at hdu2
  simp at hdu2
  obtain ⟨rfl, -⟩ := hdu2
  rw [(loopBody_image matcher c df1 now image st).1]
  constructor
  · intro hunix hadd hyoung
    have hy : notOldEnough image c.minImageAge now = true :=
      notOldEnough_of_lt image c.minImageAge now hunix hadd hyoung
    by_cases hu : isImageUsed image df1.Containers = true
    · rw [loopBody_used matcher c df1 now image st hu]
      exact ⟨rfl, rfl, rfl⟩
    · rw [loopBody_young matcher c df1 now image st hy]
      exact ⟨rfl, rfl, rfl⟩
  · intro hold hu
    have hy : notOldEnough image c.minImageAge now = false :=
      notOldEnough_of_le image c.minImageAge now hold
    rcases loopBody_cases matcher c df1 now image st with
      ⟨h1, -⟩ | ⟨err, s2, -, -, -, h⟩ | ⟨info1, s2, -, -, -, -, h⟩ |
      ⟨info1, s2, s3, err, events, -, -, -, -, -, h⟩ |
      ⟨info1, s2, s3, events, -, -, -, -, -, h⟩
    · rw [hu, hy] at h1
      simp at h1
    · rw [h]; exact ⟨_, rfl⟩
    · rw [h]; exact ⟨_, rfl⟩
    · rw [h]; exact ⟨_, rfl⟩
    · rw [h]; exact ⟨_, rfl⟩

/-- Witness of C4 amended: the two images of `TestCollectImages_SkipNotOldEnough`,
created 20 and 40 minutes ago with a minimum age of 30 minutes. -/
theorem age_guard_witness :
    (youngIteration.events = [] ∧ youngIteration.removed = false ∧
      youngIteration.sizeAfter = youngIteration.sizeBefore) ∧
    (∃ answer,
      oldEnoughIteration.events.head? = some (Event.inspect oldEnoughIteration.image.ID answer)) :=
  ⟨(age_guard matchPatterns notOldEnoughCollector testNow 0 notOldEnoughUsage youngIteration
      (by decide) (by decide)).1 (by decide) (by decide) (by decide),
    (age_guard matchPatterns notOldEnoughCollector testNow 0 notOldEnoughUsage
      oldEnoughIteration (by decide) (by decide)).2 (by decide) (by decide)⟩

/-- C5: when the snapshot is at or above the threshold, the iterations of the
pass follow the order of `snapshot.Images` (iteration `i` handles image `i`,
and a non-empty list of images gives at least one iteration), and an iteration
that removed its image and left the running size strictly below the threshold
is the last one: no later image gets an iteration, hence no inspect and no
remove call, even if it is eligible. -/
theorem eviction_order_and_stop {σ : Type}
    (matcher : List String → List String → Bool) (c : collector σ) (now : Int) (s : σ)
    (df : DiskUsage)
    (hdf : (collectImages matcher c now s).snapshot = Except.ok df)
    (hge : c.threshold ≤ df.LayersSize) :
    (∀ (i : Nat) (it : Iteration), (collectImages matcher c now s).iterations[i]? = some it →
      df.Images[i]? = some it.image) ∧
    (df.Images ≠ [] → (collectImages matcher c now s).iterations ≠ []) ∧
    (∀ (i : Nat) (it : Iteration), (collectImages matcher c now s).iterations[i]? = some it →
      it.removed = true → it.sizeAfter < c.threshold →
      (collectImages matcher c now s).iterations.length = i + 1 ∧
      (collectImages matcher c now s).events =
        ((collectImages matcher c now s).iterations.take (i + 1)).flatMap Iteration.events) := by
  obtain ⟨s1, -, h | ⟨-, hits, -⟩⟩ := collectImages_run matcher c now s df hdf
  · exact absurd h.1 (not_lt.2 hge)
  · rw [Pass.events, hits]
    refine ⟨?_, ?_, ?_⟩
    · intro i it h
      exact imagesLoop_order matcher c df now df.Images _ i it h
    · intro h
      exact imagesLoop_nonempty matcher c df now df.Images _ h
    · intro i it h hr hlt
      have hlen := imagesLoop_stop matcher c df now df.Images _ i it h hr hlt
      refine ⟨hlen, ?_⟩
      rw [← hlen, List.take_length]

/-- Witness of C5: `TestCollectImages_ById`, with `LayersSize` 850, threshold
500 and images of size 300, 300 and 250.  The first two images are inspected
and removed, the running size ends at 250 and the second iteration is the
last. -/
theorem eviction_order_and_stop_witness :
    (collectImages matchPatterns byIdCollector testNow 0).events =
        [Event.inspect "a180b24e38ed" (Except.ok ⟨"a180b24e38ed", [], []⟩),
          Event.remove "a180b24e38ed" ⟨false, false⟩ none,
          Event.inspect "4e38e38c8ce0" (Except.ok ⟨"4e38e38c8ce0", [], []⟩),
          Event.remove "4e38e38c8ce0" ⟨false, false⟩ none] ∧
      (collectImages matchPatterns byIdCollector testNow 0).iterations.map Iteration.sizeAfter =
        [550, 250] ∧
      (collectImages matchPatterns byIdCollector testNow 0).iterations.length = 1 + 1 :=
  ⟨by decide, by decide,
    ((eviction_order_and_stop matchPatterns byIdCollector testNow 0 byIdUsage
      (by decide) (by decide)).2.2 1 byIdSecondIteration (by decide) (by decide)
      (by decide)).1⟩

/-- C6: the running size starts at `LayersSize` and is handed from each
iteration to the next; an iteration that removed its image lowers it, in
`int64` arithmetic, by `image.Size + image.SharedSize` when `PruneChildren` is
set and by `image.Size` when it is not, and the result is the exact difference
whenever that difference is an `int64`. -/
theorem size_accounting {σ : Type}
    (matcher : List String → List String → Bool) (c : collector σ) (now : Int) (s : σ)
    (df : DiskUsage)
    (hdf : (collectImages matcher c now s).snapshot = Except.ok df) :
    (∀ it : Iteration, (collectImages matcher c now s).iterations[0]? = some it →
      it.sizeBefore = df.LayersSize) ∧
    (∀ (i : Nat) (a b : Iteration), (collectImages matcher c now s).iterations[i]? = some a →
      (collectImages matcher c now s).iterations[i + 1]? = some b →
      b.sizeBefore = a.sizeAfter) ∧
    (∀ it ∈ (collectImages matcher c now s).iterations, it.removed = true →
      it.sizeAfter = wrap64 (it.sizeBefore -
        (if c.imageRemoveOptions.PruneChildren = true then it.image.Size + it.image.SharedSize
          else it.image.Size)) ∧
      (-9223372036854775808 ≤ it.sizeBefore -
          (if c.imageRemoveOptions.PruneChildren = true then
            it.image.Size + it.image.SharedSize else it.image.Size) →
        it.sizeBefore -
          (if c.imageRemoveOptions.PruneChildren = true then
            it.image.Size + it.image.SharedSize else it.image.Size) < 9223372036854775808 →
        it.sizeAfter = it.sizeBefore -
          (if c.imageRemoveOptions.PruneChildren = true then
            it.image.Size + it.image.SharedSize else it.image.Size))) := by
  have hwrap : ∀ it ∈ (collectImages matcher c now s).iterations, it.removed = true →
      it.sizeAfter = wrap64 (it.sizeBefore -
        (if c.imageRemoveOptions.PruneChildren = true then it.image.Size + it.image.SharedSize
          else it.image.Size)) := by
    intro it hit hr
    obtain ⟨df1, s1, image, st, -, -, -, rfl⟩ := collectImages_mem matcher c now s it hit
    rw [(loopBody_summary matcher c df1 now image st).2.2.2.2 hr,
      (loopBody_image matcher c df1 now image st).1,
      (loopBody_image matcher c df1 now image st).2]
    unfold sizeAfterRemoval shouldConsiderSharedSpace
    by_cases hp : c.imageRemoveOptions.PruneChildren = true
    · simp only [hp, if_true]
      exact wrap64_sub64 _ _ _
    · simp only [hp]
      rfl
  refine ⟨?_, ?_, ?_⟩
  · intro it h
    obtain ⟨s1, -, h1 | ⟨-, hits, -⟩⟩ := collectImages_run matcher c now s df hdf
    · rw [h1.2.1] at h; simp at h
    · rw [hits] at h
      exact (imagesLoop_chain matcher c df now df.Images _).1 it h
  · intro i a b ha hb
    obtain ⟨s1, -, h1 | ⟨-, hits, -⟩⟩ := collectImages_run matcher c now s df hdf
    · rw [h1.2.1] at ha; simp at ha
    · rw [hits] at ha hb
      exact (imagesLoop_chain matcher c df now df.Images _).2 i a b ha hb
  · intro it hit hr
    refine ⟨hwrap it hit hr, ?_⟩
    intro h1 h2
    rw [hwrap it hit hr]
    exact wrap64_of_range _ h1 h2

/-- Witness of C6: the test with `LayersSize` 600, threshold 300 and two
images of `Size` 300 and `SharedSize` 50.  Without `PruneChildren` both images
are removed (600, 300, 0); with it the first removal takes 350 off and the
pass stops there. -/
theorem size_accounting_witness :
    (collectImages matchPatterns (sharedSizeCollector ⟨false, false⟩) testNow 0).iterations.map
        (fun it => (it.removed, it.sizeBefore, it.sizeAfter)) =
        [(true, 600, 300), (true, 300, 0)] ∧
      (collectImages matchPatterns (sharedSizeCollector ⟨false, true⟩) testNow 0).iterations.map
        (fun it => (it.removed, it.sizeBefore, it.sizeAfter)) = [(true, 600, 250)] ∧
      sharedSizeFirstIteration.sizeAfter = sharedSizeFirstIteration.sizeBefore -
        (if (sharedSizeCollector ⟨false, true⟩).imageRemoveOptions.PruneChildren = true then
          sharedSizeFirstIteration.image.Size + sharedSizeFirstIteration.image.SharedSize
          else sharedSizeFirstIteration.image.Size) :=
  ⟨by decide, by decide,
    ((size_accounting matchPatterns (sharedSizeCollector ⟨false, true⟩) testNow 0
      sharedSizeUsage (by decide)).2.2 sharedSizeFirstIteration (by decide) (by decide)).2
      (by decide) (by decide)⟩

/-- C7: when every `ImageRemove` call that `removeImage` makes succeeds, it
makes exactly one call per element of the chosen list, in list order and with
the collector's remove options, and returns nil.  The chosen list is
`RepoTags` if it is not empty, otherwise `RepoDigests` if that is not empty,
otherwise the one-element list of the `ID`. -/
theorem removeImage_all_succeed {σ : Type} (c : collector σ) (info : ImageInspect) (s : σ)
    (hok : ∀ ev ∈ (removeImage c info s).2.2, ev.failed = false) :
    (removeImage c info s).1 = none ∧
      (removeImage c info s).2.2 =
        (if info.RepoTags ≠ [] then info.RepoTags
          else if info.RepoDigests ≠ [] then info.RepoDigests
          else [info.ID]).map (fun a => Event.remove a c.imageRemoveOptions none) := by
  unfold removeImage at hok ⊢
  refine ⟨(removeLoop_nil_iff c _ s).2 hok, ?_⟩
  rw [removeLoop_all_ok c _ s hok, removalAttributes_eq]

/-- Witness of C7: an image with four tags and a client that removes every
reference: four calls, one per tag, in order. -/
theorem removeImage_all_succeed_witness :
    (removeImage fourTagsCollector whitelistInfo 0).1 = none ∧
      (removeImage fourTagsCollector whitelistInfo 0).2.2 =
        (if whitelistInfo.RepoTags ≠ [] then whitelistInfo.RepoTags
          else if whitelistInfo.RepoDigests ≠ [] then whitelistInfo.RepoDigests
          else [whitelistInfo.ID]).map
          (fun a => Event.remove a fourTagsCollector.imageRemoveOptions none) :=
  removeImage_all_succeed fourTagsCollector whitelistInfo 0 (by decide)

/-- C8: when an `ImageRemove` call fails in the iteration of some image, the
pass returns a non-nil error, the image does not count as removed and the
running size is unchanged, and the loop goes on: the next image of the
snapshot, if there is one, is put through the loop body (guards, inspect,
removal attempt) with that same running size. -/
theorem removal_failure_continues {σ : Type}
    (matcher : List String → List String → Bool) (c : collector σ) (now : Int) (s : σ)
    (df : DiskUsage) (i : Nat) (it : Iteration)
    (hdf : (collectImages matcher c now s).snapshot = Except.ok df)
    (hit : (collectImages matcher c now s).iterations[i]? = some it)
    (hfail : ∃ imageID options err, Event.remove imageID options (some err) ∈ it.events) :
    (collectImages matcher c now s).result ≠ none ∧
      it.removed = false ∧ it.sizeAfter = it.sizeBefore ∧
      (∀ image, df.Images[i + 1]? = some image →
        ∃ st : LoopState σ, st.size = it.sizeBefore ∧
          (collectImages matcher c now s).iterations[i + 1]? =
            some (loopBody matcher c df now image st).2.2) := by
  obtain ⟨imageID, options, err, hev⟩ := hfail
  obtain ⟨s1, -, h1 | ⟨-, hits, hres⟩⟩ := collectImages_run matcher c now s df hdf
  · rw [h1.2.1] at hit; simp at hit
  rw [hits] at hit ⊢
  rw [hres]
  have hmem : it ∈ (imagesLoop matcher c df now df.Images ⟨df.LayersSize, none, s1⟩).2 :=
    List.getElem?_mem hit
  obtain ⟨image0, st0, himg0, hbody⟩ :=
    imagesLoop_body matcher c df now df.Images _ i it hit
  have hrem : it.removed = false := by
    cases hr : it.removed with
    | false => rfl
    | true =>
      rw [hbody] at hr hev
      have := loopBody_removed_events matcher c df now image0 st0 hr _ hev
      simp [Event.failed] at this
  have hsize : it.sizeAfter = it.sizeBefore := by
    rw [hbody] at hrem ⊢
    rw [(loopBody_summary matcher c df now image0 st0).2.2.2.1 hrem,
      (loopBody_image matcher c df now image0 st0).2]
  refine ⟨?_, hrem, hsize, ?_⟩
  · intro hnone
    have := ((imagesLoop_result matcher c df now df.Images _).1 hnone).2 it hmem _ hev
    simp [Event.failed] at this
  · intro image himage
    have hlen : i + 1 < df.Images.length := by
      rcases Nat.lt_or_ge (i + 1) df.Images.length with h | h
      · exact h
      · rw [List.getElem?_eq_none h] at himage; cases himage
    have hnot : ¬ (it.removed = true ∧ it.sizeAfter < c.threshold) := by
      rw [hrem]; simp
    have hnext := imagesLoop_continue matcher c df now df.Images _ i it hit hnot hlen
    obtain ⟨image2, st2, himg2, hbody2⟩ :=
      imagesLoop_body matcher c df now df.Images _ (i + 1) _ (List.getElem?_eq_getElem hnext)
    rw [himage] at himg2
    simp at himg2
    subst himg2
    refine ⟨st2, ?_, ?_⟩
    · rw [← (loopBody_image matcher c df now image st2).2, ← hbody2,
        (imagesLoop_chain matcher c df now df.Images _).2 i it _ hit
          (List.getElem?_eq_getElem hnext), hsize]
    · rw [List.getElem?_eq_getElem hnext, hbody2]

/-- Witness of C8: `TestCollectImages_MutliError`, two eligible images of
which the first cannot be removed.  The second `ImageRemove` call is made and
the pass returns the aggregate of the one error. -/
theorem removal_failure_continues_witness :
    (collectImages matchPatterns multiErrorCollector testNow 0).events =
        [Event.inspect "a180b24e38ed" (Except.ok ⟨"a180b24e38ed", [], []⟩),
          Event.remove "a180b24e38ed" ⟨false, false⟩
            (some (GoError.plain "cannot remove container")),
          Event.inspect "4e38e38c8ce0" (Except.ok ⟨"4e38e38c8ce0", [], []⟩),
          Event.remove "4e38e38c8ce0" ⟨false, false⟩ none] ∧
      (collectImages matchPatterns multiErrorCollector testNow 0).result =
        some (GoError.multi [GoError.plain "cannot remove container"]) ∧
      (collectImages matchPatterns multiErrorCollector testNow 0).result ≠ none :=
  ⟨by decide, by decide,
    (removal_failure_continues matchPatterns multiErrorCollector testNow 0 multiErrorUsage 0
      multiErrorFirstIteration (by decide) (by decide)
      ⟨"a180b24e38ed", ⟨false, false⟩, GoError.plain "cannot remove container",
        by decide⟩).1⟩

/-- C9: when `DiskUsage` succeeds, `collectImages` returns nil if and only if
no `ImageInspectWithRaw` call and no `ImageRemove` call of the pass failed
(`removeImage` fails exactly when one of its `ImageRemove` calls does),
whether the pass stopped below the threshold or ran through all images. -/
theorem result_nil_iff_no_failure {σ : Type}
    (matcher : List String → List String → Bool) (c : collector σ) (now : Int) (s : σ)
    (df : DiskUsage)
    (hdf : (collectImages matcher c now s).snapshot = Except.ok df) :
    (collectImages matcher c now s).result = none ↔
      ∀ ev ∈ (collectImages matcher c now s).events, ev.failed = false := by
  obtain ⟨s1, -, h1 | ⟨-, hits, hres⟩⟩ := collectImages_run matcher c now s df hdf
  · simp [Pass.events, h1.2.1, h1.2.2]
  · rw [Pass.events, hits, hres, imagesLoop_result]
    simp only [List.mem_flatMap, true_and]
    constructor
    · rintro h ev ⟨it, hit, hev⟩
      exact h it hit ev hev
    · intro h it hit ev hev
      exact h ev ⟨it, hit, hev⟩

/-- Witness of C9: the pass of `TestCollectImages_ById` stops below the
threshold without a failing call and returns nil. -/
theorem result_nil_iff_no_failure_witness :
    (collectImages matchPatterns byIdCollector testNow 0).result = none :=
  (result_nil_iff_no_failure matchPatterns byIdCollector testNow 0 byIdUsage
    (by decide)).2 (by decide)

/-- C10: when `DiskUsage` fails with error `e`, `collectImages` returns `e`
itself, not an aggregate built from it, and the loop does not run: the pass
makes no `ImageInspectWithRaw` and no `ImageRemove` call. -/
theorem diskUsage_failure_is_returned {σ : Type}
    (matcher : List String → List String → Bool) (c : collector σ) (now : Int) (s s1 : σ)
    (e : GoError) (hdf : c.client.DiskUsage s = (Except.error e, s1)) :
    (collectImages matcher c now s).result = some e ∧
      (collectImages matcher c now s).iterations = [] ∧
      (collectImages matcher c now s).events = [] := by
  simp [collectImages, Pass.events, hdf]

/-- Witness of C10: a client whose `DiskUsage` call fails. -/
theorem diskUsage_failure_is_returned_witness :
    (collectImages matchPatterns noUsageCollector testNow 0).result =
        some (GoError.plain "cannot get disk usage") ∧
      (collectImages matchPatterns noUsageCollector testNow 0).iterations = [] ∧
      (collectImages matchPatterns noUsageCollector testNow 0).events = [] :=
  diskUsage_failure_is_returned matchPatterns noUsageCollector testNow 0 1
    (GoError.plain "cannot get disk usage") rfl

/-- C11: `isImageUsed(image, containers)` is true if and only if some container
of the list has an `ImageID` equal to `image.ID` or to `image.ParentID`; it is
false for the empty list of containers. -/
theorem isImageUsed_iff_some_container (image : ImageSummary) (containers : List Container) :
    (isImageUsed image containers = true ↔
      ∃ container ∈ containers,
        container.ImageID = image.ID ∨ container.ImageID = image.ParentID) ∧
    isImageUsed image [] = false :=
  ⟨isImageUsed_eq_true_iff image containers, rfl⟩

/-- C12: the whitelist options only append.  `WithImageWhitelist(xs)` turns a
reserved list `r` into `r ++ xs` and `WithWhitelist(ys)` turns a whitelist `w`
into `w ++ ys`, each leaving every other field as it was; applying the option
twice concatenates both arguments; on the collector of `New` the options
`WithImageWhitelist(["foo"])` and `WithWhitelist(["bar"])` give the reserved
list `["foo"]` and the whitelist `["bar"]`. -/
theorem whitelist_options_append {σ : Type} (c : collector σ) (client : APIClient σ)
    (xs ys : List String) :
    WithImageWhitelist xs c =
        ⟨c.client, c.whitelist, c.reserved ++ xs, c.threshold, c.minImageAge,
          c.shouldCollectDanglingImages, c.imageRemoveOptions⟩ ∧
      WithWhitelist ys c =
        ⟨c.client, c.whitelist ++ ys, c.reserved, c.threshold, c.minImageAge,
          c.shouldCollectDanglingImages, c.imageRemoveOptions⟩ ∧
      (WithImageWhitelist ys (WithImageWhitelist xs c)).reserved = c.reserved ++ xs ++ ys ∧
      (WithWhitelist ys (WithWhitelist xs c)).whitelist = c.whitelist ++ xs ++ ys ∧
      (New client [WithImageWhitelist ["foo"]]).reserved = ["foo"] ∧
      (New client [WithWhitelist ["bar"]]).whitelist = ["bar"] :=
  ⟨rfl, rfl, rfl, rfl, rfl, rfl⟩

/-- C13: `collectDanglingImages` makes exactly one `ImagesPrune` call, with the
filter `until=1h`, and returns the error of that call when it fails and nil
when it succeeds, whatever the report lists as deleted. -/
theorem collectDanglingImages_single_prune {σ : Type} (c : collector σ) (s : σ) :
    (collectDanglingImages c s).2.2 =
        [⟨[⟨"until", "1h"⟩], (c.client.ImagesPrune s [⟨"until", "1h"⟩]).1⟩] ∧
      (collectDanglingImages c s).1 =
        (match (c.client.ImagesPrune s [⟨"until", "1h"⟩]).1 with
          | Except.error err => some err
          | Except.ok _ => none) ∧
      (collectDanglingImages c s).2.1 = (c.client.ImagesPrune s [⟨"until", "1h"⟩]).2 := by
  unfold collectDanglingImages imagePruneArgs
  rcases h : c.client.ImagesPrune s [⟨"until", "1h"⟩] with ⟨answer, s1⟩
  cases answer <;> simp

/-- Counterexample to C14 as stated: with `PruneChildren` set, the removal of
an image that reports a `SharedSize` of -1 raises the running size from 1 to
2, and the removal of an image whose `Size` and `SharedSize` are both the
largest `int64` wraps around and raises it from 0 to 2. -/
theorem running_size_can_increase :
    (collectImages matchPatterns negativeSharedSizeCollector testNow 0).iterations.map
        (fun it => (it.removed, it.sizeBefore, it.sizeAfter)) = [(true, 1, 2)] ∧
      (collectImages matchPatterns overflowCollector testNow 0).iterations.map
        (fun it => (it.removed, it.sizeBefore, it.sizeAfter)) = [(true, 0, 2)] := by
  decide

/-- C14, amended: when the threshold is not negative, `LayersSize` is an
`int64` and every image of the snapshot has a non-negative `Size` and
`SharedSize` whose sum is an `int64`, the running size never increases: it
starts at `LayersSize`, is handed from each iteration to the next, and after
each iteration it is less than or equal to its value before that iteration. -/
theorem running_size_never_increases {σ : Type}
    (matcher : List String → List String → Bool) (c : collector σ) (now : Int) (s : σ)
    (df : DiskUsage)
    (hdf : (collectImages matcher c now s).snapshot = Except.ok df)
    (hthr : 0 ≤ c.threshold) (hlayers : df.LayersSize < 9223372036854775808)
    (hsizes : ∀ image ∈ df.Images, 0 ≤ image.Size ∧ 0 ≤ image.SharedSize ∧
      image.Size + image.SharedSize < 9223372036854775808) :
    (∀ it : Iteration, (collectImages matcher c now s).iterations[0]? = some it →
      it.sizeBefore = df.LayersSize) ∧
    (∀ (i : Nat) (a b : Iteration), (collectImages matcher c now s).iterations[i]? = some a →
      (collectImages matcher c now s).iterations[i + 1]? = some b →
      b.sizeBefore = a.sizeAfter) ∧
    (∀ it ∈ (collectImages matcher c now s).iterations,
      it.sizeAfter ≤ it.sizeBefore ∧ it.sizeBefore ≤ df.LayersSize) := by
  obtain ⟨s1, -, h1 | ⟨hge, hits, -⟩⟩ := collectImages_run matcher c now s df hdf
  · rw [h1.2.1]; simp
  · rw [hits]
    refine ⟨(imagesLoop_chain matcher c df now df.Images _).1,
      (imagesLoop_chain matcher c df now df.Images _).2, ?_⟩
    intro it hit
    obtain ⟨-, h2, h3⟩ := imagesLoop_monotone matcher c df now hthr df.Images hsizes
      ⟨df.LayersSize, none, s1⟩ (not_lt.1 hge) hlayers it hit
    exact ⟨h3, h2⟩

/-- Witness of C14 amended: in the pass of `TestCollectImages_ById` the second
iteration lowers the running size from 550 to 250. -/
theorem running_size_never_increases_witness :
    byIdSecondIteration.sizeAfter ≤ byIdSecondIteration.sizeBefore ∧
      byIdSecondIteration.sizeBefore ≤ byIdUsage.LayersSize :=
  (running_size_never_increases matchPatterns byIdCollector testNow 0 byIdUsage (by decide)
    (by decide) (by decide) (by decide)).2.2 byIdSecondIteration (by decide)

/-- Counterexample to C15 as stated: one removal fails, with an error that is
itself a `*multierror.Error` of two entries; the aggregate returned holds those
two entries and not the error the client returned. -/
theorem aggregate_splices_client_multierror :
    (collectImages matchPatterns aggregateErrorCollector testNow 0).failures =
        [GoError.multi [GoError.plain "image is being used",
          GoError.plain "image has dependent children"]] ∧
      (collectImages matchPatterns aggregateErrorCollector testNow 0).result =
        some (GoError.multi [GoError.plain "image is being used",
          GoError.plain "image has dependent children"]) := by
  decide

/-- C15, amended: every iteration meets at most one failure (a failed inspect
or the failed call of `removeImage`).  The pass returns nil when no call
failed; otherwise it returns an aggregate that lists, in the order the
failures occurred, the entries of each error the client returned: the error
itself when it is not a `*multierror.Error`, and its entries when it is one.
So when no client error is a `*multierror.Error`, the aggregate holds exactly
the errors returned by the client, one per failed image, in order. -/
theorem aggregate_lists_failures {σ : Type}
    (matcher : List String → List String → Bool) (c : collector σ) (now : Int) (s : σ)
    (df : DiskUsage)
    (hdf : (collectImages matcher c now s).snapshot = Except.ok df) :
    (∀ it ∈ (collectImages matcher c now s).iterations,
      (it.events.filterMap Event.error?).length ≤ 1) ∧
    ((collectImages matcher c now s).failures = [] →
      (collectImages matcher c now s).result = none) ∧
    ((collectImages matcher c now s).failures ≠ [] →
      (collectImages matcher c now s).result =
        some (GoError.multi ((collectImages matcher c now s).failures.flatMap flattenError))) ∧
    ((collectImages matcher c now s).failures ≠ [] →
      (∀ e ∈ (collectImages matcher c now s).failures, ∃ msg, e = GoError.plain msg) →
      (collectImages matcher c now s).result =
        some (GoError.multi (collectImages matcher c now s).failures)) := by
  have hmain := collectImages_failures matcher c now s df hdf
  refine ⟨?_, ?_, ?_, ?_⟩
  · intro it hit
    obtain ⟨df1, s1, image, st, -, -, -, rfl⟩ := collectImages_mem matcher c now s it hit
    rcases loopBody_failures matcher c df1 now image st with ⟨h1, -⟩ | ⟨err, h1, -⟩
    · rw [h1]; simp
    · rw [h1]; simp
  · intro h
    rcases hmain with ⟨-, h2⟩ | ⟨h1, -⟩
    · exact h2
    · exact absurd h h1
  · intro h
    rcases hmain with ⟨h1, -⟩ | ⟨-, h2⟩
    · exact absurd h1 h
    · exact h2
  · intro h hplain
    rcases hmain with ⟨h1, -⟩ | ⟨-, h2⟩
    · exact absurd h1 h
    · rw [h2, flatMap_flattenError_plain _ hplain]

/-- Witness of C15 amended: `TestCollectImages_MutliError`, where the one
failure is the error of the first removal. -/
theorem aggregate_lists_failures_witness :
    (collectImages matchPatterns multiErrorCollector testNow 0).result =
      some (GoError.multi (collectImages matchPatterns multiErrorCollector testNow 0).failures) :=
  (aggregate_lists_failures matchPatterns multiErrorCollector testNow 0 multiErrorUsage
    (by decide)).2.2.2 (by decide)
    (by
      intro e he
      have hf : (collectImages matchPatterns multiErrorCollector testNow 0).failures =
          [GoError.plain "cannot remove container"] := by decide
      rw [hf] at he
      exact ⟨"cannot remove container", List.mem_singleton.1 he⟩)

/-- C16: when `ImageInspectWithRaw` fails for an image, that call is the only
call of its iteration (no `ImageRemove` call is made for the image), the image
does not count as removed, the running size is unchanged, the pass returns an
aggregate that holds the entries of the error, and the next image of the
snapshot is put through the loop body with that same running size. -/
theorem inspect_failure_skips_image {σ : Type}
    (matcher : List String → List String → Bool) (c : collector σ) (now : Int) (s : σ)
    (df : DiskUsage) (i : Nat) (it : Iteration) (imageID : String) (err : GoError)
    (hdf : (collectImages matcher c now s).snapshot = Except.ok df)
    (hit : (collectImages matcher c now s).iterations[i]? = some it)
    (hfail : Event.inspect imageID (Except.error err) ∈ it.events) :
    it.events = [Event.inspect it.image.ID (Except.error err)] ∧
      it.removed = false ∧ it.sizeAfter = it.sizeBefore ∧
      (∃ errors, (collectImages matcher c now s).result = some (GoError.multi errors) ∧
        ∀ e ∈ flattenError err, e ∈ errors) ∧
      (∀ image, df.Images[i + 1]? = some image →
        ∃ st : LoopState σ, st.size = it.sizeBefore ∧
          (collectImages matcher c now s).iterations[i + 1]? =
            some (loopBody matcher c df now image st).2.2) := by
  have hmem := List.getElem?_mem hit
  obtain ⟨hrem, hsize⟩ := collectImages_failed_iteration matcher c now s it _ hmem hfail rfl
  have hevents : it.events = [Event.inspect it.image.ID (Except.error err)] := by
    obtain ⟨df1, s1, image, st, -, -, -, rfl⟩ := collectImages_mem matcher c now s it hmem
    rw [(loopBody_image matcher c df1 now image st).1]
    rcases loopBody_cases matcher c df1 now image st with
      ⟨-, h⟩ | ⟨err1, s2, -, -, -, h⟩ | ⟨info1, s2, -, -, -, hm, h⟩ |
      ⟨info1, s2, s3, err1, events, -, -, -, hm, hr, h⟩ |
      ⟨info1, s2, s3, events, -, -, -, hm, hr, h⟩
    · rw [h] at hfail; simp at hfail
    · rw [h] at hfail ⊢
      simp at hfail
      simp [hfail.2]
    · rw [h] at hfail; simp at hfail
    · rw [h] at hfail
      simp at hfail
      have hmem1 : Event.inspect imageID (Except.error err) ∈ (removeImage c info1 s2).2.2 := by
        rw [hr]; exact hfail
      exact absurd hmem1 (removeImage_not_inspect c info1 s2 _ _)
    · rw [h] at hfail
      simp at hfail
      have hmem1 : Event.inspect imageID (Except.error err) ∈ (removeImage c info1 s2).2.2 := by
        rw [hr]; exact hfail
      exact absurd hmem1 (removeImage_not_inspect c info1 s2 _ _)
  refine ⟨hevents, hrem, hsize, ?_, ?_⟩
  · have herr : err ∈ (collectImages matcher c now s).failures := by
      unfold Pass.failures Pass.events
      rw [List.mem_filterMap]
      exact ⟨_, List.mem_flatMap.2 ⟨it, hmem, hfail⟩, rfl⟩
    rcases collectImages_failures matcher c now s df hdf with ⟨h1, -⟩ | ⟨-, h2⟩
    · rw [h1] at herr; simp at herr
    · exact ⟨_, h2, fun e he => List.mem_flatMap.2 ⟨err, herr, he⟩⟩
  · have hnot : ¬ (it.removed = true ∧ it.sizeAfter < c.threshold) := by
      rw [hrem]; simp
    intro image himage
    obtain ⟨st, hst, hnext⟩ := collectImages_next matcher c now s df i it hdf hit hnot
      image himage
    exact ⟨st, by rw [hst, hsize], hnext⟩

/-- Witness of C16: of the two images of `TestCollectImages_MutliError` the
client does not know the first; its iteration holds the failed inspect call
alone and the pass goes on to the second image. -/
theorem inspect_failure_skips_image_witness :
    inspectFailureIteration.events =
        [Event.inspect inspectFailureIteration.image.ID
          (Except.error (GoError.plain "no such image"))] ∧
      inspectFailureIteration.removed = false ∧
      inspectFailureIteration.sizeAfter = inspectFailureIteration.sizeBefore ∧
      (∃ errors,
        (collectImages matchPatterns inspectFailureCollector testNow 0).result =
          some (GoError.multi errors) ∧
        ∀ e ∈ flattenError (GoError.plain "no such image"), e ∈ errors) ∧
      (∀ image, multiErrorUsage.Images[0 + 1]? = some image →
        ∃ st : LoopState Nat, st.size = inspectFailureIteration.sizeBefore ∧
          (collectImages matchPatterns inspectFailureCollector testNow 0).iterations[0 + 1]? =
            some (loopBody matchPatterns inspectFailureCollector multiErrorUsage testNow image
              st).2.2) :=
  inspect_failure_skips_image matchPatterns inspectFailureCollector testNow 0 multiErrorUsage 0
    inspectFailureIteration "a180b24e38ed" (GoError.plain "no such image") (by decide)
    (by decide) (by decide)

/-- C17: if the `ImageRemove` call for the reference at position `k` fails, it
is the first to fail and the last call of `removeImage`: the calls made are
those for the references at positions 0 to `k` of the chosen list, in order,
the first `k` of them successful, no call is made for a later reference, and
`removeImage` returns the error of the call at position `k`. -/
theorem removeImage_first_failure {σ : Type} (c : collector σ) (info : ImageInspect) (s : σ)
    (k : Nat) (ev : Event)
    (hk : (removeImage c info s).2.2[k]? = some ev) (hfail : ev.failed = true) :
    ∃ a e,
      (if info.RepoTags ≠ [] then info.RepoTags
        else if info.RepoDigests ≠ [] then info.RepoDigests
        else [info.ID])[k]? = some a ∧
      ev = Event.remove a c.imageRemoveOptions (some e) ∧
      (removeImage c info s).1 = some e ∧
      (removeImage c info s).2.2 =
        ((if info.RepoTags ≠ [] then info.RepoTags
          else if info.RepoDigests ≠ [] then info.RepoDigests
          else [info.ID]).take k).map
          (fun a1 => Event.remove a1 c.imageRemoveOptions none) ++ [ev] ∧
      (removeImage c info s).2.2.length = k + 1 := by
  unfold removeImage at hk ⊢
  rw [← removalAttributes_eq info]
  obtain ⟨a, e, ha, hev, hres, hevs⟩ :=
    removeLoop_first_failure c (removalAttributes info) s k ev hk hfail
  refine ⟨a, e, ha, hev, hres, hevs, ?_⟩
  rw [hevs]
  have hlt : k < (removalAttributes info).length := by
    rcases Nat.lt_or_ge k (removalAttributes info).length with h | h
    · exact h
    · rw [List.getElem?_eq_none h] at ha; cases ha
  simp only [List.length_append, List.length_map, List.length_take, List.length_singleton]
  omega

/-- Witness of C17: an image with four tags whose third tag cannot be removed:
three calls are made, none for the fourth tag. -/
theorem removeImage_first_failure_witness :
    ∃ a e,
      (if whitelistInfo.RepoTags ≠ [] then whitelistInfo.RepoTags
        else if whitelistInfo.RepoDigests ≠ [] then whitelistInfo.RepoDigests
        else [whitelistInfo.ID])[2]? = some a ∧
      Event.remove "drone/drone:1" ⟨false, false⟩
          (some (GoError.plain "cannot remove container")) =
        Event.remove a thirdTagFailsCollector.imageRemoveOptions (some e) ∧
      (removeImage thirdTagFailsCollector whitelistInfo 0).1 = some e ∧
      (removeImage thirdTagFailsCollector whitelistInfo 0).2.2 =
        ((if whitelistInfo.RepoTags ≠ [] then whitelistInfo.RepoTags
          else if whitelistInfo.RepoDigests ≠ [] then whitelistInfo.RepoDigests
          else [whitelistInfo.ID]).take 2).map
          (fun a1 => Event.remove a1 thirdTagFailsCollector.imageRemoveOptions none) ++
          [Event.remove "drone/drone:1" ⟨false, false⟩
            (some (GoError.plain "cannot remove container"))] ∧
      (removeImage thirdTagFailsCollector whitelistInfo 0).2.2.length = 2 + 1 :=
  removeImage_first_failure thirdTagFailsCollector whitelistInfo 0 2
    (Event.remove "drone/drone:1" ⟨false, false⟩
      (some (GoError.plain "cannot remove container"))) (by decide) (by decide)

/-- C18: when `removeImage` fails for an image, whatever number `k` of its
references were removed before the failing call, the image does not count as
removed and the running size is exactly what it was before that image; the
loop does not stop there: the next image of the snapshot is put through the
loop body with that same running size. -/
theorem removal_failure_keeps_size {σ : Type}
    (matcher : List String → List String → Bool) (c : collector σ) (now : Int) (s : σ)
    (df : DiskUsage) (i : Nat) (it : Iteration) (ref : String) (options : ImageRemoveOptions)
    (err : GoError)
    (hdf : (collectImages matcher c now s).snapshot = Except.ok df)
    (hit : (collectImages matcher c now s).iterations[i]? = some it)
    (hfail : Event.remove ref options (some err) ∈ it.events) :
    (∃ info k, it.events =
      Event.inspect it.image.ID (Except.ok info) ::
        (((removalAttributes info).take k).map
          (fun a => Event.remove a c.imageRemoveOptions none) ++
          [Event.remove ref options (some err)])) ∧
      it.removed = false ∧ it.sizeAfter = it.sizeBefore ∧
      (∀ image, df.Images[i + 1]? = some image →
        ∃ st : LoopState σ, st.size = it.sizeBefore ∧
          (collectImages matcher c now s).iterations[i + 1]? =
            some (loopBody matcher c df now image st).2.2) := by
  have hmem := List.getElem?_mem hit
  obtain ⟨hrem, hsize⟩ := collectImages_failed_iteration matcher c now s it _ hmem hfail rfl
  have hevents : ∃ info k, it.events =
      Event.inspect it.image.ID (Except.ok info) ::
        (((removalAttributes info).take k).map
          (fun a => Event.remove a c.imageRemoveOptions none) ++
          [Event.remove ref options (some err)]) := by
    obtain ⟨df1, s1, image, st, -, -, -, rfl⟩ := collectImages_mem matcher c now s it hmem
    rw [(loopBody_image matcher c df1 now image st).1]
    have hshape : ∀ (info1 : ImageInspect) (s2 : σ) (events : List Event),
        (removeImage c info1 s2).2.2 = events →
        Event.remove ref options (some err) ∈ events →
        ∃ k, events = ((removalAttributes info1).take k).map
          (fun a => Event.remove a c.imageRemoveOptions none) ++
          [Event.remove ref options (some err)] := by
      intro info1 s2 events hr hin
      obtain ⟨k, hk⟩ := List.mem_iff_getElem?.1 hin
      rw [← hr] at hk
      unfold removeImage at hk hr
      obtain ⟨a, e, -, -, -, hevs⟩ :=
        removeLoop_first_failure c (removalAttributes info1) s2 k _ hk rfl
      exact ⟨k, by rw [← hr, hevs]⟩
    rcases loopBody_cases matcher c df1 now image st with
      ⟨-, h⟩ | ⟨err1, s2, -, -, -, h⟩ | ⟨info1, s2, -, -, -, hm, h⟩ |
      ⟨info1, s2, s3, err1, events, -, -, -, hm, hr, h⟩ |
      ⟨info1, s2, s3, events, -, -, -, hm, hr, h⟩
    · rw [h] at hfail; simp at hfail
    · rw [h] at hfail; simp at hfail
    · rw [h] at hfail; simp at hfail
    · rw [h] at hfail ⊢
      simp at hfail
      obtain ⟨k, hk⟩ := hshape info1 s2 events (by rw [hr]) hfail
      exact ⟨info1, k, by rw [hk]⟩
    · rw [h] at hfail ⊢
      simp at hfail
      obtain ⟨k, hk⟩ := hshape info1 s2 events (by rw [hr]) hfail
      exact ⟨info1, k, by rw [hk]⟩
  refine ⟨hevents, hrem, hsize, ?_⟩
  have hnot : ¬ (it.removed = true ∧ it.sizeAfter < c.threshold) := by
    rw [hrem]; simp
  intro image himage
  obtain ⟨st, hst, hnext⟩ := collectImages_next matcher c now s df i it hdf hit hnot
    image himage
  exact ⟨st, by rw [hst, hsize], hnext⟩

/-- Witness of C18: the first image has two tags; its first tag is removed and
the removal of the second fails.  The running size stays at 600 and the second
image is inspected and removed. -/
theorem removal_failure_keeps_size_witness :
    (collectImages matchPatterns partialRemovalCollector testNow 0).iterations.map
        (fun it => (it.removed, it.sizeBefore, it.sizeAfter)) =
        [(false, 600, 600), (true, 600, 300)] ∧
      partialRemovalIteration.removed = false ∧
      partialRemovalIteration.sizeAfter = partialRemovalIteration.sizeBefore :=
  ⟨by decide,
    (removal_failure_keeps_size matchPatterns partialRemovalCollector testNow 0
      partialRemovalUsage 0 partialRemovalIteration "alpine:3" ⟨false, false⟩
      (GoError.plain "cannot remove container") (by decide) (by decide) (by decide)).2.1,
    (removal_failure_keeps_size matchPatterns partialRemovalCollector testNow 0
      partialRemovalUsage 0 partialRemovalIteration "alpine:3" ⟨false, false⟩
      (GoError.plain "cannot remove container") (by decide) (by decide) (by decide)).2.2.1⟩

/-- C19: the stopping comparison is strict.  After a successful removal that
leaves the running size equal to the threshold the loop does not stop: the
next image of the snapshot is put through the loop body with that running
size.  Likewise a snapshot whose `LayersSize` equals the threshold does not
take the early return: its first image is put through the loop body. -/
theorem stop_comparison_is_strict {σ : Type}
    (matcher : List String → List String → Bool) (c : collector σ) (now : Int) (s : σ)
    (df : DiskUsage)
    (hdf : (collectImages matcher c now s).snapshot = Except.ok df) :
    (∀ (i : Nat) (it : Iteration), (collectImages matcher c now s).iterations[i]? = some it →
      it.removed = true → it.sizeAfter = c.threshold →
      ∀ image, df.Images[i + 1]? = some image →
        ∃ st : LoopState σ, st.size = c.threshold ∧
          (collectImages matcher c now s).iterations[i + 1]? =
            some (loopBody matcher c df now image st).2.2) ∧
    (df.LayersSize = c.threshold →
      ∀ image, df.Images[0]? = some image →
        ∃ st : LoopState σ, st.size = c.threshold ∧
          (collectImages matcher c now s).iterations[0]? =
            some (loopBody matcher c df now image st).2.2) := by
  constructor
  · intro i it hit _ heq image himage
    have hnot : ¬ (it.removed = true ∧ it.sizeAfter < c.threshold) := by
      rw [heq]; simp
    obtain ⟨st, hst, hnext⟩ := collectImages_next matcher c now s df i it hdf hit hnot
      image himage
    exact ⟨st, by rw [hst, heq], hnext⟩
  · intro heq image himage
    have hge : ¬ df.LayersSize < c.threshold := by rw [heq]; simp
    obtain ⟨st, hst, hfirst⟩ := collectImages_first matcher c now s df hdf hge image himage
    exact ⟨st, by rw [hst, heq], hfirst⟩

/-- Witness of C19: with `LayersSize` 600 and threshold 300 the first removal
leaves the running size at 300 and the second image is still inspected and
removed; with `LayersSize` 1 and threshold 1 the one image gets its iteration. -/
theorem stop_comparison_is_strict_witness :
    (collectImages matchPatterns (sharedSizeCollector ⟨false, false⟩) testNow 0).events =
        [Event.inspect "a180b24e38ed" (Except.ok ⟨"a180b24e38ed", ["alpine:latest"], []⟩),
          Event.remove "alpine:latest" ⟨false, false⟩ none,
          Event.inspect "4e38e38c8ce0" (Except.ok ⟨"4e38e38c8ce0", ["busybox:latest"], []⟩),
          Event.remove "busybox:latest" ⟨false, false⟩ none] ∧
      (∃ st : LoopState Nat, st.size = (sharedSizeCollector ⟨false, false⟩).threshold ∧
        (collectImages matchPatterns (sharedSizeCollector ⟨false, false⟩) testNow
          0).iterations[0 + 1]? =
          some (loopBody matchPatterns (sharedSizeCollector ⟨false, false⟩) sharedSizeUsage
            testNow ⟨"4e38e38c8ce0", "", 359596800, 300, 50, ["busybox:latest"], []⟩
            st).2.2) ∧
      (∃ st : LoopState Nat, st.size = exactThresholdCollector.threshold ∧
        (collectImages matchPatterns exactThresholdCollector testNow 0).iterations[0]? =
          some (loopBody matchPatterns exactThresholdCollector oneImageUsage testNow
            ⟨"a180b24e38ed", "", 359596800, 0, 0, [], []⟩ st).2.2) :=
  ⟨by decide,
    (stop_comparison_is_strict matchPatterns (sharedSizeCollector ⟨false, false⟩) testNow 0
      sharedSizeUsage (by decide)).1 0 exactThresholdIteration (by decide) (by decide)
      (by decide) ⟨"4e38e38c8ce0", "", 359596800, 300, 50, ["busybox:latest"], []⟩
      (by decide),
    (stop_comparison_is_strict matchPatterns exactThresholdCollector testNow 0 oneImageUsage
      (by decide)).2 (by decide) ⟨"a180b24e38ed", "", 359596800, 0, 0, [], []⟩ (by decide)⟩

/-- C20: each of `WithThreshold`, `WithMinImageAge`,
`WithDanglingImagesCollection` and `WithImageRemoveOptions` sets its own field
to the given value and leaves every other field of the collector as it was;
hence the six options of `TestOptions`, applied in any order to a collector,
leave the four fields at the supplied values. -/
theorem options_set_own_field {σ : Type} (c : collector σ) (threshold minImageAge : Int)
    (enabled : Bool) (options : ImageRemoveOptions) (images names : List String) :
    WithThreshold threshold c =
        ⟨c.client, c.whitelist, c.reserved, threshold, c.minImageAge,
          c.shouldCollectDanglingImages, c.imageRemoveOptions⟩ ∧
      WithMinImageAge minImageAge c =
        ⟨c.client, c.whitelist, c.reserved, c.threshold, minImageAge,
          c.shouldCollectDanglingImages, c.imageRemoveOptions⟩ ∧
      WithDanglingImagesCollection enabled c =
        ⟨c.client, c.whitelist, c.reserved, c.threshold, c.minImageAge, enabled,
          c.imageRemoveOptions⟩ ∧
      WithImageRemoveOptions options c =
        ⟨c.client, c.whitelist, c.reserved, c.threshold, c.minImageAge,
          c.shouldCollectDanglingImages, options⟩ ∧
      (∀ opts : List (CollectorOption σ),
        opts.Perm [WithImageWhitelist images, WithThreshold threshold, WithWhitelist names,
          WithMinImageAge minImageAge, WithDanglingImagesCollection enabled,
          WithImageRemoveOptions options] →
        (opts.foldl (fun c1 o => o c1) c).threshold = threshold ∧
          (opts.foldl (fun c1 o => o c1) c).minImageAge = minImageAge ∧
          (opts.foldl (fun c1 o => o c1) c).shouldCollectDanglingImages = enabled ∧
          (opts.foldl (fun c1 o => o c1) c).imageRemoveOptions = options) := by
  refine ⟨rfl, rfl, rfl, rfl, ?_⟩
  intro opts hperm
  have hmem : ∀ o, o ∈ opts ↔ o ∈ [WithImageWhitelist images, WithThreshold threshold,
      WithWhitelist names, WithMinImageAge minImageAge, WithDanglingImagesCollection enabled,
      WithImageRemoveOptions options] := fun o => hperm.mem_iff
  refine ⟨?_, ?_, ?_, ?_⟩
  · apply foldl_options_field (fun c1 => c1.threshold) threshold opts
    · intro o ho
      rw [hmem] at ho
      simp only [List.mem_cons, List.mem_singleton, List.not_mem_nil, or_false] at ho
      rcases ho with h | h | h | h | h | h <;> subst h
      · exact Or.inr (fun _ => rfl)
      · exact Or.inl (fun _ => rfl)
      · exact Or.inr (fun _ => rfl)
      · exact Or.inr (fun _ => rfl)
      · exact Or.inr (fun _ => rfl)
      · exact Or.inr (fun _ => rfl)
    · exact Or.inl ⟨WithThreshold threshold, (hmem _).2 (by simp), fun _ => rfl⟩
  · apply foldl_options_field (fun c1 => c1.minImageAge) minImageAge opts
    · intro o ho
      rw [hmem] at ho
      simp only [List.mem_cons, List.mem_singleton, List.not_mem_nil, or_false] at ho
      rcases ho with h | h | h | h | h | h <;> subst h
      · exact Or.inr (fun _ => rfl)
      · exact Or.inr (fun _ => rfl)
      · exact Or.inr (fun _ => rfl)
      · exact Or.inl (fun _ => rfl)
      · exact Or.inr (fun _ => rfl)
      · exact Or.inr (fun _ => rfl)
    · exact Or.inl ⟨WithMinImageAge minImageAge, (hmem _).2 (by simp), fun _ => rfl⟩
  · apply foldl_options_field (fun c1 => c1.shouldCollectDanglingImages) enabled opts
    · intro o ho
      rw [hmem] at ho
      simp only [List.mem_cons, List.mem_singleton, List.not_mem_nil, or_false] at ho
      rcases ho with h | h | h | h | h | h <;> subst h
      · exact Or.inr (fun _ => rfl)
      · exact Or.inr (fun _ => rfl)
      · exact Or.inr (fun _ => rfl)
      · exact Or.inr (fun _ => rfl)
      · exact Or.inl (fun _ => rfl)
      · exact Or.inr (fun _ => rfl)
    · exact Or.inl ⟨WithDanglingImagesCollection enabled, (hmem _).2 (by simp), fun _ => rfl⟩
  · apply foldl_options_field (fun c1 => c1.imageRemoveOptions) options opts
    · intro o ho
      rw [hmem] at ho
      simp only [List.mem_cons, List.mem_singleton, List.not_mem_nil, or_false] at ho
      rcases ho with h | h | h | h | h | h <;> subst h
      · exact Or.inr (fun _ => rfl)
      · exact Or.inr (fun _ => rfl)
      · exact Or.inr (fun _ => rfl)
      · exact Or.inr (fun _ => rfl)
      · exact Or.inr (fun _ => rfl)
      · exact Or.inl (fun _ => rfl)
    · exact Or.inl ⟨WithImageRemoveOptions options, (hmem _).2 (by simp), fun _ => rfl⟩

/-- Witness of C20: `TestOptions`, with threshold 42, a minimum image age of
five hours, dangling collection on and both remove options set. -/
theorem options_set_own_field_witness :
    (New (mockClient (Except.ok belowThresholdUsage) [] []) testOptions).threshold = 42 ∧
      (New (mockClient (Except.ok belowThresholdUsage) [] []) testOptions).minImageAge =
        18000000000000 ∧
      (New (mockClient (Except.ok belowThresholdUsage) [] [])
        testOptions).shouldCollectDanglingImages = true ∧
      (New (mockClient (Except.ok belowThresholdUsage) [] []) testOptions).imageRemoveOptions =
        ⟨true, true⟩ :=
  (options_set_own_field (newCollector (mockClient (Except.ok belowThresholdUsage) [] [])) 42
    18000000000000 true ⟨true, true⟩ ["foo"] ["bar"]).2.2.2.2 testOptions (List.Perm.refl _)

/-- C21: when `DiskUsage` succeeds, the snapshot is at or above the threshold
and no iteration leaves the running size below the threshold, the loop runs
through all images, and every image that no container uses and that is old
enough is inspected in its iteration; if the inspect call succeeds and the
inspected `RepoTags` match no reserved pattern, `removeImage` is run on the
answer: the iteration goes on with the `ImageRemove` call for the first
reference of the chosen list. -/
theorem eligible_images_are_attempted {σ : Type}
    (matcher : List String → List String → Bool) (c : collector σ) (now : Int) (s : σ)
    (df : DiskUsage) (i : Nat) (image : ImageSummary)
    (hdf : (collectImages matcher c now s).snapshot = Except.ok df)
    (hge : c.threshold ≤ df.LayersSize)
    (hnever : ∀ it ∈ (collectImages matcher c now s).iterations, c.threshold ≤ it.sizeAfter)
    (himage : df.Images[i]? = some image)
    (hunused : ¬ ∃ container ∈ df.Containers,
      container.ImageID = image.ID ∨ container.ImageID = image.ParentID)
    (hold : image.Created * 1000000000 + c.minImageAge ≤ now) :
    (collectImages matcher c now s).iterations.length = df.Images.length ∧
      ∃ it answer, (collectImages matcher c now s).iterations[i]? = some it ∧
        it.image = image ∧
        it.events.head? = some (Event.inspect image.ID answer) ∧
        ∀ info, answer = Except.ok info → matcher info.RepoTags c.reserved = false →
          ∃ ref result s1,
            (removalAttributes info).head? = some ref ∧
            it.events[1]? = some (Event.remove ref c.imageRemoveOptions result) ∧
            it.events = Event.inspect image.ID (Except.ok info) :: (removeImage c info s1).2.2 := by
  obtain ⟨s0, -, h1 | ⟨-, hits, -⟩⟩ := collectImages_run matcher c now s df hdf
  · exact absurd h1.1 (not_lt.2 hge)
  rw [hits] at hnever ⊢
  have hlen := imagesLoop_full matcher c df now df.Images ⟨df.LayersSize, none, s0⟩
    (fun it hit h => absurd h.2 (not_lt.2 (hnever it hit)))
  have hi : i < df.Images.length := by
    rcases Nat.lt_or_ge i df.Images.length with h | h
    · exact h
    · rw [List.getElem?_eq_none h] at himage; cases himage
  have hi2 : i < (imagesLoop matcher c df now df.Images ⟨df.LayersSize, none, s0⟩).2.length := by
    rw [hlen]; exact hi
  obtain ⟨image1, st1, himg1, hbody⟩ :=
    imagesLoop_body matcher c df now df.Images _ i _ (List.getElem?_eq_getElem hi2)
  rw [himage] at himg1
  simp at himg1
  subst himg1
  have hu : isImageUsed image df.Containers = false := by
    cases h : isImageUsed image df.Containers with
    | false => rfl
    | true => exact absurd ((isImageUsed_eq_true_iff image df.Containers).1 h) hunused
  have hy : notOldEnough image c.minImageAge now = false :=
    notOldEnough_of_le image c.minImageAge now hold
  have hshape : ∀ (info : ImageInspect) (s2 : σ),
      ∃ ref result, (removalAttributes info).head? = some ref ∧
        (Event.inspect image.ID (Except.ok info) :: (removeImage c info s2).2.2)[1]? =
          some (Event.remove ref c.imageRemoveOptions result) := by
    intro info s2
    obtain ⟨a, rest, hattrs⟩ := removalAttributes_cons info
    obtain ⟨result, hhead⟩ := removeLoop_head c a rest s2
    refine ⟨a, result, by rw [hattrs]; rfl, ?_⟩
    unfold removeImage
    rw [hattrs, List.getElem?_cons_succ, ← List.head?_eq_getElem?]
    exact hhead
  have hidx : (imagesLoop matcher c df now df.Images ⟨df.LayersSize, none, s0⟩).2[i]? =
      some (loopBody matcher c df now image st1).2.2 := by
    rw [List.getElem?_eq_getElem hi2, hbody]
  have himg := (loopBody_image matcher c df now image st1).1
  rcases loopBody_cases matcher c df now image st1 with
    ⟨h1, -⟩ | ⟨err, s2, -, -, -, h⟩ | ⟨info1, s2, -, -, -, hm, h⟩ |
    ⟨info1, s2, s3, err, events, -, -, -, hm, hr, h⟩ |
    ⟨info1, s2, s3, events, -, -, -, hm, hr, h⟩
  · rw [hu, hy] at h1
    simp at h1
  · refine ⟨hlen, _, Except.error err, hidx, himg, by rw [h]; rfl, ?_⟩
    intro info hinfo
    cases hinfo
  · refine ⟨hlen, _, Except.ok info1, hidx, himg, by rw [h]; rfl, ?_⟩
    intro info hinfo hres
    injection hinfo with hinfo
    subst hinfo
    rw [hm] at hres
    cases hres
  · refine ⟨hlen, _, Except.ok info1, hidx, himg, by rw [h]; rfl, ?_⟩
    intro info hinfo _
    injection hinfo with hinfo
    subst hinfo
    have hev : events = (removeImage c info1 s2).2.2 := by rw [hr]
    obtain ⟨ref, result, h1, h2⟩ := hshape info1 s2
    rw [h]
    exact ⟨ref, result, s2, h1, by rw [hev]; exact h2, by rw [hev]⟩
  · refine ⟨hlen, _, Except.ok info1, hidx, himg, by rw [h]; rfl, ?_⟩
    intro info hinfo _
    injection hinfo with hinfo
    subst hinfo
    have hev : events = (removeImage c info1 s2).2.2 := by rw [hr]
    obtain ⟨ref, result, h1, h2⟩ := hshape info1 s2
    rw [h]
    exact ⟨ref, result, s2, h1, by rw [hev]; exact h2, by rw [hev]⟩

/-- Witness of C21: the pass of `TestCollectImages_SkipNotOldEnough` never
brings the running size below the threshold 0; its second image is not used,
is old enough and is inspected, and the `ImageRemove` call for its ID follows. -/
theorem eligible_images_are_attempted_witness :
    (collectImages matchPatterns notOldEnoughCollector testNow 0).iterations.length =
        notOldEnoughUsage.Images.length ∧
      ∃ it answer,
        (collectImages matchPatterns notOldEnoughCollector testNow 0).iterations[1]? = some it ∧
        it.image = oldEnoughIteration.image ∧
        it.events.head? = some (Event.inspect oldEnoughIteration.image.ID answer) ∧
        ∀ info, answer = Except.ok info →
          matchPatterns info.RepoTags notOldEnoughCollector.reserved = false →
          ∃ ref result s1,
            (removalAttributes info).head? = some ref ∧
            it.events[1]? =
              some (Event.remove ref notOldEnoughCollector.imageRemoveOptions result) ∧
            it.events = Event.inspect oldEnoughIteration.image.ID (Except.ok info) ::
              (removeImage notOldEnoughCollector info s1).2.2 :=
  eligible_images_are_attempted matchPatterns notOldEnoughCollector testNow 0
    notOldEnoughUsage 1 oldEnoughIteration.image (by decide) (by decide) (by decide)
    (by decide) (by decide) (by decide)

/-- C22: in every pass, iteration `i` handles entry `i` of `snapshot.Images`
and makes at most one `ImageInspectWithRaw` call, for the ID of that entry and
before any other call, so a pass makes at most one inspect call per entry.
Every `ImageRemove` call carries the collector's options and a reference out
of the list chosen from the inspect answer that heads the same iteration (its
`RepoTags`, its `RepoDigests` or its `ID`); a reference that is in no such
list, such as a tag that only the snapshot summary carries, is never used.
Hence the number of `ImageRemove` calls is at most the sum, over the
successful inspect calls, of the length of the chosen list, and at least one. -/
theorem call_discipline {σ : Type}
    (matcher : List String → List String → Bool) (c : collector σ) (now : Int) (s : σ)
    (df : DiskUsage)
    (hdf : (collectImages matcher c now s).snapshot = Except.ok df) :
    (∀ (i : Nat) (it : Iteration), (collectImages matcher c now s).iterations[i]? = some it →
      df.Images[i]? = some it.image) ∧
    (∀ it ∈ (collectImages matcher c now s).iterations,
      it.events.countP Event.isInspect ≤ 1 ∧
      ∀ imageID answer, Event.inspect imageID answer ∈ it.events →
        imageID = it.image.ID ∧ it.events.head? = some (Event.inspect imageID answer)) ∧
    (collectImages matcher c now s).events.countP Event.isInspect ≤ df.Images.length ∧
    (∀ it ∈ (collectImages matcher c now s).iterations,
      ∀ ref options answer, Event.remove ref options answer ∈ it.events →
        options = c.imageRemoveOptions ∧
        ∃ info, it.events.head? = some (Event.inspect it.image.ID (Except.ok info)) ∧
          ref ∈ removalAttributes info ∧
          (ref ∈ info.RepoTags ∨ ref ∈ info.RepoDigests ∨ ref = info.ID)) ∧
    (∀ it ∈ (collectImages matcher c now s).iterations, ∀ ref,
      (∀ info, Event.inspect it.image.ID (Except.ok info) ∈ it.events →
        ref ∉ removalAttributes info) →
      ∀ options answer, Event.remove ref options answer ∉ it.events) ∧
    (collectImages matcher c now s).events.countP Event.isRemove ≤
      (((collectImages matcher c now s).events.filterMap Event.inspected?).map
        (fun info => max 1 (removalAttributes info).length)).sum := by
  have hdisc : ∀ it ∈ (collectImages matcher c now s).iterations,
      CallDiscipline c it.image it.events := by
    intro it hit
    obtain ⟨df1, s1, image, st, -, -, -, rfl⟩ := collectImages_mem matcher c now s it hit
    rw [(loopBody_image matcher c df1 now image st).1]
    exact loopBody_callDiscipline matcher c df1 now image st
  have horder : ∀ (i : Nat) (it : Iteration),
      (collectImages matcher c now s).iterations[i]? = some it →
      df.Images[i]? = some it.image := by
    intro i it hit
    obtain ⟨s1, -, h1 | ⟨-, hits, -⟩⟩ := collectImages_run matcher c now s df hdf
    · rw [h1.2.1] at hit; simp at hit
    · rw [hits] at hit
      exact imagesLoop_order matcher c df now df.Images _ i it hit
  have hremove : ∀ it ∈ (collectImages matcher c now s).iterations,
      ∀ ref options answer, Event.remove ref options answer ∈ it.events →
        options = c.imageRemoveOptions ∧
        ∃ info, it.events.head? = some (Event.inspect it.image.ID (Except.ok info)) ∧
          ref ∈ removalAttributes info ∧
          (ref ∈ info.RepoTags ∨ ref ∈ info.RepoDigests ∨ ref = info.ID) := by
    intro it hit ref options answer hev
    obtain ⟨hopt, info, hhead, href⟩ := (hdisc it hit).2.2.1 ref options answer hev
    exact ⟨hopt, info, hhead, href, removalAttributes_mem info ref href⟩
  refine ⟨horder, ?_, ?_, hremove, ?_, ?_⟩
  · intro it hit
    exact ⟨(hdisc it hit).1, (hdisc it hit).2.1⟩
  · have hlen : (collectImages matcher c now s).iterations.length ≤ df.Images.length := by
      rcases Nat.lt_or_ge df.Images.length
        (collectImages matcher c now s).iterations.length with h | h
      · have h1 := horder df.Images.length _ (List.getElem?_eq_getElem h)
        rw [List.getElem?_eq_none (le_refl _)] at h1
        cases h1
      · exact h
    exact le_trans
      (countP_inspect_flatMap _ (fun it hit => (hdisc it hit).1)) hlen
  · intro it hit ref hnot options answer hev
    obtain ⟨-, info, hhead, href, -⟩ := hremove it hit ref options answer hev
    exact hnot info (List.mem_of_mem_head? hhead) href
  · exact countP_remove_flatMap _ (fun it hit => (hdisc it hit).2.2.2)

/-- Witness of C22: the snapshot lists the image with the tag `stale:1.0`, the
inspect answer carries `alpine:latest`; the one `ImageRemove` call of the pass
is for `alpine:latest`. -/
theorem call_discipline_witness :
    (collectImages matchPatterns staleSummaryCollector testNow 0).events =
        [Event.inspect "a180b24e38ed" (Except.ok ⟨"a180b24e38ed", ["alpine:latest"], []⟩),
          Event.remove "alpine:latest" ⟨false, false⟩ none] ∧
      (⟨false, false⟩ : ImageRemoveOptions) = staleSummaryCollector.imageRemoveOptions ∧
      ∃ info,
        staleSummaryIteration.events.head? =
          some (Event.inspect staleSummaryIteration.image.ID (Except.ok info)) ∧
        "alpine:latest" ∈ removalAttributes info ∧
        ("alpine:latest" ∈ info.RepoTags ∨ "alpine:latest" ∈ info.RepoDigests ∨
          "alpine:latest" = info.ID) :=
  ⟨by decide,
    (call_discipline matchPatterns staleSummaryCollector testNow 0 staleSummaryUsage
      (by decide)).2.2.2.1 staleSummaryIteration (by decide) "alpine:latest" ⟨false, false⟩
      none (by decide)⟩

end DroneGC
